import Mathlib

/-!
Verification development for the Datasaur MCP server (`src/main.py`,
`src/utils.py`).

The Python source is shallowly embedded: pure data transformations
(CSV parsing via `csv.DictReader`, per-cell numeric coercion, JSON
serialization and deserialization) become Lean functions, I/O boundaries
(file reads, the HTTP POST performed with `httpx`) become explicit
outcome parameters, and Python exceptions become an `Except PyExn`
result.  Python floating-point values are represented by the exact
rational number denoted by their decimal source text; no claim in this
development depends on IEEE rounding.
-/

namespace Datasaur

/-- Decidable equality for `Except`, used to evaluate concrete runs. -/
instance exceptDecEq {ε α : Type} [DecidableEq ε] [DecidableEq α] :
    DecidableEq (Except ε α) := fun x y =>
  match x, y with
  | .error e, .error f =>
    if h : e = f then .isTrue (by rw [h])
    else .isFalse (fun hh => h (by cases hh; rfl))
  | .error _, .ok _ => .isFalse (fun hh => by cases hh)
  | .ok _, .error _ => .isFalse (fun hh => by cases hh)
  | .ok a, .ok b =>
    if h : a = b then .isTrue (by rw [h])
    else .isFalse (fun hh => h (by cases hh; rfl))

/-- Python exceptions that the embedded code can raise.  Only the
exception class matters for the claims; the message is informative. -/
inductive PyExn where
  | typeError (msg : String)
  | keyError (msg : String)
  | indexError (msg : String)
  | attributeError (msg : String)
  | csvError (msg : String)
  deriving DecidableEq

/-! ## Characters and digit strings -/

/-- ASCII decimal digit test; model of the character class accepted by
Python `str.isdigit` for the ASCII inputs this development works with. -/
def isAsciiDigit (c : Char) : Bool :=
  '0' ≤ c && c ≤ '9'

/-- Model of Python `str.isdigit`: non-empty and all digits. -/
def pyIsDigit (s : String) : Bool :=
  !s.toList.isEmpty && s.toList.all isAsciiDigit

/-- Numeric value of a digit character. -/
def digitVal (c : Char) : Nat :=
  c.toNat - '0'.toNat

/-- Model of Python `int(...)` on an all-digit string. -/
def digitsToNat (cs : List Char) : Nat :=
  cs.foldl (fun acc c => 10 * acc + digitVal c) 0

/-- Remove the first occurrence of a character from a list:
model of Python `value.replace('.', '', 1)` at the character level. -/
def removeFirstOcc (c : Char) : List Char → List Char
  | [] => []
  | x :: xs => if x = c then xs else x :: removeFirstOcc c xs

/-- Model of Python `value.replace('.', '', 1)`. -/
def replaceFirstDot (s : String) : String :=
  ⟨removeFirstOcc '.' s.toList⟩

/-- Model of Python `value.count('.')`. -/
def countDots (s : String) : Nat :=
  s.toList.count '.'

/-! ## Python values appearing in a converted CSV row

`csv.DictReader` yields rows whose raw values are strings, `None`
(missing cells of a short row, via `restval`), or a list of strings
(extra cells of a long row, via `restkey`).  After the coercion loop in
`convert_csv_to_json` the stored values are integers, floats, strings,
`None`, or lists of strings. -/

/-- Raw cell value as produced by `csv.DictReader`. -/
inductive RawCell where
  | rstr (s : String)
  | rnone
  | rlist (xs : List String)
  deriving DecidableEq

/-- Cell value after the numeric-coercion loop of `convert_csv_to_json`. -/
inductive CellValue where
  | vInt (n : Int)
  | vFloat (q : ℚ)
  | vStr (s : String)
  | vNone
  | vList (xs : List String)
  deriving DecidableEq

/-- True exactly for the three value kinds the spec's `TabularRow`
data model allows: integer, floating-point, string. -/
def isScalarCell : CellValue → Bool
  | .vInt _ => true
  | .vFloat _ => true
  | .vStr _ => true
  | _ => false

/-- Split a character list at the first '.' (the dot itself removed). -/
def splitFirstDot : List Char → Option (List Char × List Char)
  | [] => none
  | x :: xs =>
    if x = '.' then some ([], xs)
    else match splitFirstDot xs with
      | none => none
      | some (a, b) => some (x :: a, b)

/-- Model of Python `float(...)` restricted to optionally-dotted digit
strings, the only shapes it is applied to in `convert_csv_to_json`.
Returns the exact rational value denoted by the decimal text;
returns `none` on any other input (modelling `ValueError`). -/
def pyFloat? (s : String) : Option ℚ :=
  let cs := s.toList
  match splitFirstDot cs with
  | none =>
    if !cs.isEmpty && cs.all isAsciiDigit then some (mkRat (digitsToNat cs) 1)
    else none
  | some (a, b) =>
    if !(a.isEmpty && b.isEmpty) && a.all isAsciiDigit && b.all isAsciiDigit
        && !b.contains '.' then
      some (mkRat (digitsToNat a * 10 ^ b.length + digitsToNat b) (10 ^ b.length))
    else none

/-- Per-cell coercion of `convert_csv_to_json` (src/main.py lines 92-103)
applied to a string cell:

  if value:
      if value.isdigit(): int(value)
      elif value.replace('.', '', 1).isdigit() and value.count('.') == 1:
          try: float(value)
          except ValueError: value
      else: value
  else: value
-/
def coerceStr (value : String) : CellValue :=
  if value = "" then .vStr value
  else if pyIsDigit value then .vInt (digitsToNat value.toList)
  else if pyIsDigit (replaceFirstDot value) && countDots value == 1 then
    match pyFloat? value with
    | some q => .vFloat q
    | none => .vStr value
  else .vStr value

/-- One iteration of the coercion loop, on a raw `DictReader` cell.
A non-empty list (extra cells of a long row under the `restkey`) is
truthy, and `value.isdigit()` then raises `AttributeError`; `None` and
the empty list are falsy and are stored unchanged. -/
def processCell : RawCell → Except PyExn CellValue
  | .rstr v => .ok (coerceStr v)
  | .rnone => .ok .vNone
  | .rlist [] => .ok (.vList [])
  | .rlist (_ :: _) =>
    .error (.attributeError "list object has no attribute isdigit")

/-! ## Spec-side reference coercion policy (for the refinement claim C1) -/

/-- Modelled from the spec: "String containing exactly one '.' and
otherwise all-digit content (e.g. '3.14') -> floating-point": the exact
decimal value denoted, integer part before the dot, fraction after. -/
def specFloatDenote (s : String) : ℚ :=
  let a := s.toList.takeWhile (fun c => c ≠ '.')
  let b := (s.toList.dropWhile (fun c => c ≠ '.')).drop 1
  mkRat (digitsToNat a * 10 ^ b.length + digitsToNat b) (10 ^ b.length)

/-- Modelled from the spec's reference per-cell coercion policy
(spec.md section 4.1): empty string preserved; all-decimal-digit string
becomes the integer it denotes; a string with exactly one '.' and
otherwise all-digit (non-empty) content becomes the floating-point
value it denotes, falling back to the original string if float
conversion fails; everything else is the original string unchanged. -/
def specCoerce (value : String) : CellValue :=
  if value = "" then .vStr ""
  else if value.toList.all isAsciiDigit then .vInt (digitsToNat value.toList)
  else if value.toList.count '.' == 1
      && (value.toList.filter (fun c => c ≠ '.')).all isAsciiDigit
      && !(value.toList.filter (fun c => c ≠ '.')).isEmpty then
    match pyFloat? value with
    | some q => .vFloat q
    | none => .vStr value
  else .vStr value

/-! ## The CSV reader

`convert_csv_to_json` parses the file content with
`csv.DictReader(StringIO(csv_content))`.  The model below embeds the
CPython `_csv` reader state machine for the default excel dialect
(delimiter ',', quotechar '"', doublequote, non-strict, no escapechar,
no NUL bytes).  `StringIO` iteration yields lines split after each
newline character; the reader processes each line's characters followed
by an end-of-line marker.  A character in the eat-CRNL state that is
not a newline raises `_csv.Error`. -/

inductive CsvState where
  | startRecord
  | startField
  | inField
  | inQuotedField
  | quoteInQuotedField
  | eatCRNL
  deriving DecidableEq

structure CsvAcc where
  st : CsvState
  field : List Char
  fields : List String
  records : List (List String)
  deriving DecidableEq

/-- Save the current field (characters are accumulated reversed). -/
def saveField (acc : CsvAcc) : CsvAcc :=
  { acc with field := [], fields := String.mk acc.field.reverse :: acc.fields }

/-- Close the current record (fields are accumulated reversed). -/
def endRecord (acc : CsvAcc) : CsvAcc :=
  { acc with fields := [], records := acc.fields.reverse :: acc.records }

/-- The reader's start-of-field transitions (shared by `startRecord`
fallthrough and `startField`). -/
def csvStartField (acc : CsvAcc) (c : Char) : Except String CsvAcc :=
  if c = '\n' ∨ c = '\r' then .ok { saveField acc with st := .eatCRNL }
  else if c = '"' then .ok { acc with st := .inQuotedField }
  else if c = ',' then .ok { saveField acc with st := .startField }
  else .ok { acc with field := c :: acc.field, st := .inField }

/-- One non-end-of-line character through the `_csv` state machine. -/
def csvChar (acc : CsvAcc) (c : Char) : Except String CsvAcc :=
  match acc.st with
  | .startRecord =>
    if c = '\n' ∨ c = '\r' then .ok { acc with st := .eatCRNL }
    else csvStartField acc c
  | .startField => csvStartField acc c
  | .inField =>
    if c = '\n' ∨ c = '\r' then .ok { saveField acc with st := .eatCRNL }
    else if c = ',' then .ok { saveField acc with st := .startField }
    else .ok { acc with field := c :: acc.field }
  | .inQuotedField =>
    if c = '"' then .ok { acc with st := .quoteInQuotedField }
    else .ok { acc with field := c :: acc.field }
  | .quoteInQuotedField =>
    if c = '"' then .ok { acc with field := c :: acc.field, st := .inQuotedField }
    else if c = ',' then .ok { saveField acc with st := .startField }
    else if c = '\n' ∨ c = '\r' then .ok { saveField acc with st := .eatCRNL }
    else .ok { acc with field := c :: acc.field, st := .inField }
  | .eatCRNL =>
    if c = '\n' ∨ c = '\r' then .ok acc
    else .error "new-line character seen in unquoted field"

/-- The end-of-line marker fed after each line's characters. -/
def csvEOL (acc : CsvAcc) : CsvAcc :=
  match acc.st with
  | .startRecord => { endRecord acc with st := .startRecord }
  | .startField => { endRecord (saveField acc) with st := .startRecord }
  | .inField => { endRecord (saveField acc) with st := .startRecord }
  | .inQuotedField => acc
  | .quoteInQuotedField => { endRecord (saveField acc) with st := .startRecord }
  | .eatCRNL => { endRecord acc with st := .startRecord }

/-- End of input while still inside a quoted field: the non-strict
reader saves the pending field and closes the record. -/
def csvFinalize (acc : CsvAcc) : CsvAcc :=
  if acc.st = .inQuotedField then { endRecord (saveField acc) with st := .startRecord }
  else acc

/-- Split into lines after each newline character, keeping the newline:
the iteration behaviour of `StringIO`. -/
def splitLinesAux : List Char → List Char → List (List Char)
  | [], cur => if cur.isEmpty then [] else [cur.reverse]
  | c :: cs, cur =>
    if c = '\n' then (c :: cur).reverse :: splitLinesAux cs []
    else splitLinesAux cs (c :: cur)

def csvLines (s : String) : List (List Char) :=
  splitLinesAux s.toList []

def csvProcessLine (acc : CsvAcc) (line : List Char) : Except String CsvAcc := do
  let acc ← line.foldlM csvChar acc
  pure (csvEOL acc)

/-- All records of the CSV content, in order. -/
def csvParse (content : String) : Except String (List (List String)) := do
  let acc ← (csvLines content).foldlM csvProcessLine ⟨.startRecord, [], [], []⟩
  pure ((csvFinalize acc).records.reverse)

/-! ## DictReader and conversion -/

/-- A key of a `DictReader` row dictionary: a column name from the
header, or the `restkey` (`None`) holding the extra cells of a row
longer than the header. -/
inductive DKey where
  | col (s : String)
  | restkey
  deriving DecidableEq

/-- Python dict lookup on an insertion-ordered association list. -/
def pyLookup {α : Type} (k : DKey) : List (DKey × α) → Option α
  | [] => none
  | (k', v) :: rest => if k' = k then some v else pyLookup k rest

/-- Python dict insertion: update in place if the key is present,
otherwise append. -/
def pyInsert {α : Type} (k : DKey) (v : α) : List (DKey × α) → List (DKey × α)
  | [] => [(k, v)]
  | (k', v') :: rest =>
    if k' = k then (k', v) :: rest else (k', v') :: pyInsert k v rest

abbrev RawRow := List (DKey × RawCell)
abbrev OutRow := List (DKey × CellValue)

/-- One `DictReader` row: `dict(zip(fieldnames, row))`, then the extra
cells under the restkey if the row is longer than the header, or
`restval` (`None`) for the missing columns if it is shorter. -/
def mkDictRow (fieldnames row : List String) : RawRow :=
  let d := (List.zip fieldnames row).foldl
    (fun d kv => pyInsert (.col kv.1) (.rstr kv.2) d) []
  if fieldnames.length < row.length then
    pyInsert .restkey (.rlist (row.drop fieldnames.length)) d
  else if fieldnames.length > row.length then
    (fieldnames.drop row.length).foldl (fun d k => pyInsert (.col k) .rnone d) d
  else d

/-- The `DictReader` rows of a record list: the first record is the
header; blank records among the data are skipped. -/
def dictRows (records : List (List String)) : List RawRow :=
  match records with
  | [] => []
  | fieldnames :: rest =>
    (rest.filter (fun r => r ≠ [])).map (mkDictRow fieldnames)

/-- The coercion loop of `convert_csv_to_json` over one row's items,
in order; the first exception raised propagates. -/
def processRow : RawRow → Except PyExn OutRow
  | [] => .ok []
  | kv :: rest =>
    match processCell kv.2 with
    | .error e => .error e
    | .ok v =>
      match processRow rest with
      | .error e => .error e
      | .ok out => .ok ((kv.1, v) :: out)

/-- The `for row in reader` loop: each row is processed and appended;
the first exception raised propagates. -/
def processRows : List RawRow → Except PyExn (List OutRow)
  | [] => .ok []
  | r :: rest =>
    match processRow r with
    | .error e => .error e
    | .ok out =>
      match processRows rest with
      | .error e => .error e
      | .ok outs => .ok (out :: outs)

/-- Outcome of the file-access steps of `convert_csv_to_json`
(`os.path.exists`, `os.path.isfile`, `open(...).read()`). -/
inductive FileOutcome where
  | notFound
  | notAFile
  | fnfDuringOpen
  | permissionDenied
  | readError (msg : String)
  | content (s : String)
  deriving DecidableEq

/-- The single-element error indicator returned for file-access
failures: `[{"error": msg}]`. -/
def errorIndicator (msg : String) : List OutRow :=
  [[(.col "error", .vStr msg)]]

/-- `convert_csv_to_json` (src/main.py lines 57-106): file-access
failures become the error indicator list; otherwise the content is
parsed with `csv.DictReader` and each row's cells are coerced.  A
`_csv.Error` or an `AttributeError` from a non-string cell propagates
as an exception (the parsing loop is outside the `try` block). -/
def convert_csv_to_json (file_path : String) (fo : FileOutcome) :
    Except PyExn (List OutRow) :=
  match fo with
  | .notFound => .ok (errorIndicator ("File not found at path: " ++ file_path))
  | .notAFile => .ok (errorIndicator ("Path is not a file: " ++ file_path))
  | .fnfDuringOpen => .ok (errorIndicator ("File not found: " ++ file_path))
  | .permissionDenied => .ok (errorIndicator ("Permission denied: " ++ file_path))
  | .readError msg => .ok (errorIndicator ("Error reading file: " ++ msg))
  | .content s =>
    match csvParse s with
    | .error e => .error (.csvError e)
    | .ok recs => processRows (dictRows recs)

/-! ## JSON values

The decoded form of a JSON document, as produced by Python
`json.loads`: object keys are strings, numbers are integers or floats
(floats again modelled by the exact rational denoted). -/

inductive JsonValue where
  | jNull
  | jBool (b : Bool)
  | jInt (n : Int)
  | jFloat (q : ℚ)
  | jStr (s : String)
  | jArr (xs : List JsonValue)
  | jObj (fields : List (String × JsonValue))

/-- Number of times `p` divides `n` (fuel-based). -/
def countFactorAux (p : Nat) : Nat → Nat → Nat
  | 0, _ => 0
  | fuel + 1, n =>
    if 2 ≤ p && n % p == 0 && n != 0 then countFactorAux p fuel (n / p) + 1
    else 0

def countFactor (p n : Nat) : Nat :=
  countFactorAux p n n

/-- Decimal text of a float value: model of Python `repr` on a float
whose value is an exact decimal (the only floats this system builds:
results of `float` on digit strings and of `json.loads` on decimal
literals).  Trailing zeros are removed by rational normalization. -/
def floatRepr (q : ℚ) : String :=
  let k2 := countFactor 2 q.den
  let k5 := countFactor 5 q.den
  let k := max k2 k5
  if 2 ^ k2 * 5 ^ k5 = q.den then
    let m := q.num.natAbs * (10 ^ k / q.den)
    let ds := Nat.toDigits 10 m
    let ds := if ds.length < k + 1 then List.replicate (k + 1 - ds.length) '0' ++ ds else ds
    (if q.num < 0 then "-" else "") ++ String.mk (ds.take (ds.length - k)) ++ "."
      ++ (if k = 0 then "0" else String.mk (ds.drop (ds.length - k)))
  else
    (if q.num < 0 then "-" else "") ++ toString q.num.natAbs ++ "/" ++ toString q.den

def hexDigitChar (n : Nat) : Char :=
  Char.ofNat (if n ≤ 9 then 48 + n else 87 + n)

/-- JSON string escaping as performed by `json.dumps` with
`ensure_ascii=False`. -/
def jsonEscapeChar (c : Char) : List Char :=
  if c = '"' then ['\\', '"']
  else if c = '\\' then ['\\', '\\']
  else if c = '\n' then ['\\', 'n']
  else if c = '\r' then ['\\', 'r']
  else if c = '\t' then ['\\', 't']
  else if c.toNat = 8 then ['\\', 'b']
  else if c.toNat = 12 then ['\\', 'f']
  else if c.toNat < 32 then
    let hi := hexDigitChar (c.toNat / 16)
    let lo := hexDigitChar (c.toNat % 16)
    '\\' :: 'u' :: '0' :: '0' :: hi :: [lo]
  else [c]

def jsonQuote (s : String) : String :=
  String.mk ('"' :: s.toList.foldr (fun c acc => jsonEscapeChar c ++ acc) ['"'])

def indentStr (n : Nat) : String :=
  String.mk (List.replicate (2 * n) ' ')

mutual

/-- Model of `json.dumps(v, indent=2, ensure_ascii=False)` at nesting
level `ind` (the form used on `message.content` by the CSV relay). -/
def dumpsIndent : Nat → JsonValue → String
  | _, .jNull => "null"
  | _, .jBool true => "true"
  | _, .jBool false => "false"
  | _, .jInt n => toString n
  | _, .jFloat q => floatRepr q
  | _, .jStr s => jsonQuote s
  | _, .jArr [] => "[]"
  | ind, .jArr (x :: xs) =>
    "[\n" ++ dumpsItems (ind + 1) (x :: xs) ++ "\n" ++ indentStr ind ++ "]"
  | _, .jObj [] => "\x7b\x7d"
  | ind, .jObj (f :: fs) =>
    "\x7b\n" ++ dumpsFields (ind + 1) (f :: fs) ++ "\n" ++ indentStr ind ++ "\x7d"

def dumpsItems : Nat → List JsonValue → String
  | _, [] => ""
  | ind, [x] => indentStr ind ++ dumpsIndent ind x
  | ind, x :: y :: xs =>
    indentStr ind ++ dumpsIndent ind x ++ ",\n" ++ dumpsItems ind (y :: xs)

def dumpsFields : Nat → List (String × JsonValue) → String
  | _, [] => ""
  | ind, [(k, v)] => indentStr ind ++ jsonQuote k ++ ": " ++ dumpsIndent ind v
  | ind, (k, v) :: g :: fs =>
    indentStr ind ++ jsonQuote k ++ ": " ++ dumpsIndent ind v ++ ",\n"
      ++ dumpsFields ind (g :: fs)

end

/-- Python single-quoted string repr (simplified: escapes backslash,
the quote itself, and common control characters). -/
def pyEscChar (c : Char) : List Char :=
  if c = '\\' then ['\\', '\\']
  else if c = Char.ofNat 39 then ['\\', Char.ofNat 39]
  else if c = '\n' then ['\\', 'n']
  else if c = '\r' then ['\\', 'r']
  else if c = '\t' then ['\\', 't']
  else [c]

def pySQuote (s : String) : String :=
  String.mk (Char.ofNat 39 :: s.toList.foldr (fun c acc => pyEscChar c ++ acc) [Char.ofNat 39])

mutual

/-- Model of Python `repr` on a value decoded from JSON. -/
def pyReprJson : JsonValue → String
  | .jNull => "None"
  | .jBool true => "True"
  | .jBool false => "False"
  | .jInt n => toString n
  | .jFloat q => floatRepr q
  | .jStr s => pySQuote s
  | .jArr xs => "[" ++ pyReprList xs ++ "]"
  | .jObj fs => "\x7b" ++ pyReprFields fs ++ "\x7d"

def pyReprList : List JsonValue → String
  | [] => ""
  | [x] => pyReprJson x
  | x :: y :: xs => pyReprJson x ++ ", " ++ pyReprList (y :: xs)

def pyReprFields : List (String × JsonValue) → String
  | [] => ""
  | [(k, v)] => pySQuote k ++ ": " ++ pyReprJson v
  | (k, v) :: g :: fs => pySQuote k ++ ": " ++ pyReprJson v ++ ", " ++ pyReprFields (g :: fs)

end

/-- Model of Python `str` on a value decoded from JSON: a string is
returned as-is, everything else via `repr`. -/
def pyStrJson : JsonValue → String
  | .jStr s => s
  | .jNull => "None"
  | .jBool true => "True"
  | .jBool false => "False"
  | .jInt n => toString n
  | .jFloat q => floatRepr q
  | .jArr xs => pyReprJson (.jArr xs)
  | .jObj fs => pyReprJson (.jObj fs)

/-! ## JSON parsing (model of Python `json.loads`)

Recursive-descent parser over the character list, with a fuel
parameter for termination.  It models the strict default decoder on
the JSON subset without `NaN`/`Infinity` literals and without
surrogate-pair recombination. -/

def jsonWs (c : Char) : Bool :=
  c = ' ' || c = '\t' || c = '\n' || c = '\r'

def hexVal (c : Char) : Option Nat :=
  let n := c.toNat
  if 48 ≤ n ∧ n ≤ 57 then some (n - 48)
  else if 97 ≤ n ∧ n ≤ 102 then some (n - 87)
  else if 65 ≤ n ∧ n ≤ 70 then some (n - 55)
  else none

/-- If `pre` is a prefix of `l`, return the rest of `l`. -/
def startsList (pre l : List Char) : Option (List Char) :=
  match pre, l with
  | [], l => some l
  | p :: ps, x :: xs => if x = p then startsList ps xs else none
  | _ :: _, [] => none

/-- Parse the remainder of a JSON string literal (after the opening
quote), accumulating decoded characters in reverse. -/
def parseJsonStringAux : Nat → List Char → List Char → Option (String × List Char)
  | 0, _, _ => none
  | fuel + 1, acc, cs =>
    match cs with
    | [] => none
    | c :: rest =>
      if c = '"' then some (String.mk acc.reverse, rest)
      else if c = '\\' then
        match rest with
        | [] => none
        | e :: rest2 =>
          if e = '"' then parseJsonStringAux fuel ('"' :: acc) rest2
          else if e = '\\' then parseJsonStringAux fuel ('\\' :: acc) rest2
          else if e = '/' then parseJsonStringAux fuel ('/' :: acc) rest2
          else if e = 'b' then parseJsonStringAux fuel (Char.ofNat 8 :: acc) rest2
          else if e = 'f' then parseJsonStringAux fuel (Char.ofNat 12 :: acc) rest2
          else if e = 'n' then parseJsonStringAux fuel ('\n' :: acc) rest2
          else if e = 'r' then parseJsonStringAux fuel ('\r' :: acc) rest2
          else if e = 't' then parseJsonStringAux fuel ('\t' :: acc) rest2
          else if e = 'u' then
            match rest2 with
            | h1 :: h2 :: h3 :: h4 :: rest3 =>
              match hexVal h1, hexVal h2, hexVal h3, hexVal h4 with
              | some a, some b, some c2, some d =>
                parseJsonStringAux fuel
                  (Char.ofNat (((a * 16 + b) * 16 + c2) * 16 + d) :: acc) rest3
              | _, _, _, _ => none
            | _ => none
          else none
      else if c.toNat < 32 then none
      else parseJsonStringAux fuel (c :: acc) rest

/-- Parse a JSON number per the strict grammar
`-? (0 | [1-9][0-9]*) (. [0-9]+)? ([eE][+-]?[0-9]+)?`; an integer
literal decodes to an int, anything with fraction or exponent to a
float. -/
def parseJsonNumber (cs : List Char) : Option (JsonValue × List Char) :=
  let pr : Bool × List Char :=
    match cs with
    | c :: rest => if c = '-' then (true, rest) else (false, cs)
    | [] => (false, cs)
  let neg := pr.1
  let cs1 := pr.2
  let intDigits := cs1.takeWhile isAsciiDigit
  let cs2 := cs1.dropWhile isAsciiDigit
  if intDigits.isEmpty then none
  else if 1 < intDigits.length && intDigits.head? = some '0' then none
  else
    let fracOpt : Option (List Char × List Char) :=
      match cs2 with
      | c :: cs3 =>
        if c = '.' then
          let fd := cs3.takeWhile isAsciiDigit
          if fd.isEmpty then none else some (fd, cs3.dropWhile isAsciiDigit)
        else none
      | [] => none
    let fracDigits := (fracOpt.map (fun p => p.1)).getD []
    let cs4 := (fracOpt.map (fun p => p.2)).getD cs2
    let expOpt : Option (Int × List Char) :=
      match cs4 with
      | c :: rest =>
        if c = 'e' ∨ c = 'E' then
          let sr : Int × List Char :=
            match rest with
            | c2 :: rest2 =>
              if c2 = '+' then (1, rest2)
              else if c2 = '-' then (-1, rest2)
              else (1, rest)
            | [] => (1, rest)
          let ds := sr.2.takeWhile isAsciiDigit
          if ds.isEmpty then none
          else some (sr.1 * (digitsToNat ds : Int), sr.2.dropWhile isAsciiDigit)
        else none
      | [] => none
    let expVal := (expOpt.map (fun p => p.1)).getD 0
    let cs5 := (expOpt.map (fun p => p.2)).getD cs4
    let mantissa : Int :=
      (if neg then -1 else 1) * (digitsToNat (intDigits ++ fracDigits) : Int)
    if fracOpt.isSome || expOpt.isSome then
      let e : Int := expVal - fracDigits.length
      some (.jFloat (if 0 ≤ e then mkRat (mantissa * 10 ^ e.toNat) 1
                     else mkRat mantissa (10 ^ (-e).toNat)), cs5)
    else
      some (.jInt mantissa, cs5)

/-- Python-dict insertion for string keys: a duplicate key keeps its
first position but takes the later value. -/
def strInsert {α : Type} (k : String) (v : α) : List (String × α) → List (String × α)
  | [] => [(k, v)]
  | (k', v') :: rest =>
    if k' = k then (k', v) :: rest else (k', v') :: strInsert k v rest

def strLookup {α : Type} (k : String) : List (String × α) → Option α
  | [] => none
  | (k', v) :: rest => if k' = k then some v else strLookup k rest

mutual

def parseJsonValue : Nat → List Char → Option (JsonValue × List Char)
  | 0, _ => none
  | fuel + 1, cs =>
    match cs with
    | [] => none
    | c :: rest =>
      if c = 'n' then (startsList ['u', 'l', 'l'] rest).map (fun r => (.jNull, r))
      else if c = 't' then (startsList ['r', 'u', 'e'] rest).map (fun r => (.jBool true, r))
      else if c = 'f' then (startsList ['a', 'l', 's', 'e'] rest).map (fun r => (.jBool false, r))
      else if c = '"' then (parseJsonStringAux fuel [] rest).map (fun p => (.jStr p.1, p.2))
      else if c = '[' then
        let rest1 := rest.dropWhile jsonWs
        match rest1 with
        | c2 :: rest2 =>
          if c2 = ']' then some (.jArr [], rest2)
          else (parseJsonItems fuel rest1).map (fun p => (.jArr p.1, p.2))
        | [] => none
      else if c = Char.ofNat 123 then
        let rest1 := rest.dropWhile jsonWs
        match rest1 with
        | c2 :: rest2 =>
          if c2 = Char.ofNat 125 then some (.jObj [], rest2)
          else (parseJsonFields fuel [] rest1).map (fun p => (.jObj p.1, p.2))
        | [] => none
      else parseJsonNumber cs

def parseJsonItems : Nat → List Char → Option (List JsonValue × List Char)
  | 0, _ => none
  | fuel + 1, cs =>
    match parseJsonValue fuel cs with
    | none => none
    | some (v, rest) =>
      match rest.dropWhile jsonWs with
      | c :: rest2 =>
        if c = ',' then
          match parseJsonItems fuel (rest2.dropWhile jsonWs) with
          | some (vs, rest3) => some (v :: vs, rest3)
          | none => none
        else if c = ']' then some ([v], rest2)
        else none
      | [] => none

def parseJsonFields (fuel : Nat) (acc : List (String × JsonValue)) (cs : List Char) :
    Option (List (String × JsonValue) × List Char) :=
  match fuel with
  | 0 => none
  | fuel + 1 =>
    match cs with
    | c :: rest =>
      if c = '"' then
        match parseJsonStringAux fuel [] rest with
        | some (k, rest1) =>
          match rest1.dropWhile jsonWs with
          | c2 :: rest3 =>
            if c2 = ':' then
              match parseJsonValue fuel (rest3.dropWhile jsonWs) with
              | some (v, rest4) =>
                match rest4.dropWhile jsonWs with
                | c3 :: rest6 =>
                  if c3 = ',' then
                    parseJsonFields fuel (strInsert k v acc) (rest6.dropWhile jsonWs)
                  else if c3 = Char.ofNat 125 then some (strInsert k v acc, rest6)
                  else none
                | [] => none
              | none => none
            else none
          | [] => none
        | none => none
      else none
    | [] => none

end

/-- Model of `json.loads` (also used for `httpx.Response.json()`):
`none` models a raised `json.JSONDecodeError`. -/
def jsonLoads (s : String) : Option JsonValue :=
  match parseJsonValue (2 * s.length + 2) (s.toList.dropWhile jsonWs) with
  | some (v, rest) => if (rest.dropWhile jsonWs).isEmpty then some v else none
  | none => none

/-! ## Python operations on decoded JSON values

The response-processing code of the tools runs outside any
`try`/`except` block, so the Python semantics of `in`, `len` and
subscription — including the `TypeError`/`KeyError`/`IndexError` they
raise on unexpected shapes — must be modelled faithfully. -/

def startsBool (pre l : List Char) : Bool :=
  match pre, l with
  | [], _ => true
  | _ :: _, [] => false
  | p :: ps, x :: xs => x = p && startsBool ps xs

/-- `needle` occurs as a contiguous sublist of `hay`. -/
def substrList : List Char → List Char → Bool
  | needle, [] => needle.isEmpty
  | needle, c :: t => startsBool needle (c :: t) || substrList needle t

/-- `strContains hay needle`: Python `needle in hay` on strings. -/
def strContains (hay needle : String) : Bool :=
  substrList needle.toList hay.toList

/-- Python `needle in x` for a string needle and a decoded JSON value. -/
def pyInOp (needle : String) : JsonValue → Except PyExn Bool
  | .jObj fs => .ok (strLookup needle fs).isSome
  | .jArr xs => .ok (xs.any (fun v => match v with | .jStr s => s = needle | _ => false))
  | .jStr s => .ok (strContains s needle)
  | _ => .error (.typeError "argument of type is not iterable")

/-- Python `len(x)` on a decoded JSON value. -/
def pyLenOp : JsonValue → Except PyExn Nat
  | .jObj fs => .ok fs.length
  | .jArr xs => .ok xs.length
  | .jStr s => .ok s.length
  | _ => .error (.typeError "object has no len")

/-- Python `x[key]` for a string key. -/
def pySubscrStr (key : String) : JsonValue → Except PyExn JsonValue
  | .jObj fs =>
    match strLookup key fs with
    | some v => .ok v
    | none => .error (.keyError key)
  | .jArr _ => .error (.typeError "list indices must be integers or slices, not str")
  | .jStr _ => .error (.typeError "string indices must be integers")
  | _ => .error (.typeError "object is not subscriptable")

/-- Python `x[0]`.  A JSON-decoded dict has only string keys, so `d[0]`
raises `KeyError`. -/
def pySubscrZero : JsonValue → Except PyExn JsonValue
  | .jObj _ => .error (.keyError "0")
  | .jArr [] => .error (.indexError "list index out of range")
  | .jArr (x :: _) => .ok x
  | .jStr s =>
    match s.toList with
    | [] => .error (.indexError "string index out of range")
    | c :: _ => .ok (.jStr (String.mk [c]))
  | _ => .error (.typeError "object is not subscriptable")

/-- Outcome of the response-shape checks shared by all tools
(src/main.py lines 156-171 and the per-tool copies). -/
inductive EnvelopeCheck where
  | content (c : JsonValue)
  | missingContent
  | missingChoices

/-- The response-processing conditionals:

    if 'choices' in response_json and len(response_json['choices']) > 0:
        if 'message' in response_json['choices'][0] and
           'content' in response_json['choices'][0]['message']:
            content = response_json['choices'][0]['message']['content']
        else: missing message content
    else: missing choices

Each Python subexpression is evaluated by the corresponding model
operation, an exception anywhere propagating outward; repeated pure
subscriptions are evaluated once. -/
def interpretEnvelope (rj : JsonValue) : Except PyExn EnvelopeCheck :=
  match pyInOp "choices" rj with
  | .error e => .error e
  | .ok hasChoices =>
    if hasChoices then
      match pySubscrStr "choices" rj with
      | .error e => .error e
      | .ok choices =>
        match pyLenOp choices with
        | .error e => .error e
        | .ok n =>
          if 0 < n then
            match pySubscrZero choices with
            | .error e => .error e
            | .ok c0 =>
              match pyInOp "message" c0 with
              | .error e => .error e
              | .ok hasMsg =>
                if hasMsg then
                  match pySubscrStr "message" c0 with
                  | .error e => .error e
                  | .ok msg =>
                    match pyInOp "content" msg with
                    | .error e => .error e
                    | .ok hasContent =>
                      if hasContent then
                        match pySubscrStr "content" msg with
                        | .error e => .error e
                        | .ok content => .ok (.content content)
                      else .ok .missingContent
                else .ok .missingContent
          else .ok .missingChoices
    else .ok .missingChoices

/-! ## The relay tools -/

/-- What the single HTTP POST of a tool produced: a transport-level
`httpx.RequestError`, a response with a status code and a body, or any
other exception inside the `try` block. -/
inductive NetOutcome where
  | requestError (msg : String)
  | response (status : Nat) (body : String)
  | otherException (msg : String)
  deriving DecidableEq

def is2xx (status : Nat) : Bool :=
  200 ≤ status && status < 300

/-- Observable outcome of one tool invocation: the returned string or
raised exception, the number of HTTP requests performed, and the
`content` field of the single user message sent (if any). -/
structure ToolResult where
  result : Except PyExn String
  networkCalls : Nat
  sentContent : Option String
  deriving DecidableEq

/-- Python truthiness of an optional environment-variable string:
`not value` is true when the variable is unset or empty. -/
def pyFalsy : Option String → Bool
  | none => true
  | some s => s == ""

def configMissingMsg (cfgname : String) : String :=
  "Error: Datasaur " ++ cfgname ++ " API configuration missing on server."

def requestFailedMsg (e : String) : String :=
  "Error: API request failed: " ++ e

def statusFailedMsg (code : Nat) : String :=
  "Error: API request failed with status " ++ toString code ++ ". Check server logs."

def unexpectedErrMsg (reqname : String) : String :=
  "Error: An unexpected error occurred during " ++ reqname ++ "API request. Check server logs."

def missingContentMsg (apiname : String) : String :=
  "Error: Received unexpected response format from " ++ apiname
    ++ " API (missing message content)."

def missingChoicesMsg (apiname : String) : String :=
  "Error: Received unexpected response format from " ++ apiname ++ " API (missing choices)."

/-- The CSV tool's post-processing of `message.content` (src/main.py
lines 158-165): a structured value is re-serialized as pretty JSON; a
string is parsed as JSON and re-serialized, falling back to the string
itself on `JSONDecodeError`; `str(content)` for other scalars (where
`json.loads` raises `TypeError`, caught by the same handler). -/
def csvContentPostprocess (content : JsonValue) : String :=
  match content with
  | .jObj fs => dumpsIndent 0 (.jObj fs)
  | .jArr xs => dumpsIndent 0 (.jArr xs)
  | .jStr s =>
    match jsonLoads s with
    | some v => dumpsIndent 0 v
    | none => s
  | c => pyStrJson c

/-- The `try`-block around the HTTP POST plus the response processing,
shared shape of all twelve tools; `post` is the per-variant handling of
`message.content`.  `reqname` and `apiname` are the name fragments
appearing in the tool's error strings. -/
def relayCore (reqname apiname : String) (post : JsonValue → String)
    (content : String) (net : NetOutcome) : ToolResult :=
  match net with
  | .requestError e => ⟨.ok (requestFailedMsg e), 1, some content⟩
  | .otherException _ => ⟨.ok (unexpectedErrMsg reqname), 1, some content⟩
  | .response status body =>
    if is2xx status then
      match jsonLoads body with
      | none => ⟨.ok (unexpectedErrMsg reqname), 1, some content⟩
      | some rj =>
        match interpretEnvelope rj with
        | .error e => ⟨.error e, 1, some content⟩
        | .ok (.content c) => ⟨.ok (post c), 1, some content⟩
        | .ok .missingContent => ⟨.ok (missingContentMsg apiname), 1, some content⟩
        | .ok .missingChoices => ⟨.ok (missingChoicesMsg apiname), 1, some content⟩
    else ⟨.ok (statusFailedMsg status), 1, some content⟩

/-- Body shared by the nine prompt-relay tools: config check, then the
HTTP call with `str(content)` post-processing. -/
def promptRelay (cfgname apiname reqname : String) (url apiKey : Option String)
    (prompt : String) (net : NetOutcome) : ToolResult :=
  if pyFalsy url || pyFalsy apiKey then ⟨.ok (configMissingMsg cfgname), 0, none⟩
  else relayCore reqname apiname pyStrJson prompt net

def call_grok_uncensored (url apiKey : Option String) (prompt : String)
    (net : NetOutcome) : ToolResult :=
  promptRelay "Grok" "Grok" "Grok " url apiKey prompt net

def call_GPT_4_1 (url apiKey : Option String) (prompt : String)
    (net : NetOutcome) : ToolResult :=
  promptRelay "GPT-4.1" "GPT-4.1" "GPT-4.1 " url apiKey prompt net

def call_GPT_o3 (url apiKey : Option String) (prompt : String)
    (net : NetOutcome) : ToolResult :=
  promptRelay "GPT o3" "GPT o3" "GPT o3 " url apiKey prompt net

def call_grok_3 (url apiKey : Option String) (prompt : String)
    (net : NetOutcome) : ToolResult :=
  promptRelay "Grok 3" "Grok 3" "Grok 3 " url apiKey prompt net

def call_gemini_exp (url apiKey : Option String) (prompt : String)
    (net : NetOutcome) : ToolResult :=
  promptRelay "Gemini Exp" "Gemini Exp" "Gemini Exp " url apiKey prompt net

def call_deepseek_r1 (url apiKey : Option String) (prompt : String)
    (net : NetOutcome) : ToolResult :=
  promptRelay "DeepSeek R1" "DeepSeek R1" "DeepSeek R1 " url apiKey prompt net

def call_mcp_helper (url apiKey : Option String) (prompt : String)
    (net : NetOutcome) : ToolResult :=
  promptRelay "MCP Helper" "MCP Helper" "MCP Helper " url apiKey prompt net

def call_email_helper (url apiKey : Option String) (prompt : String)
    (net : NetOutcome) : ToolResult :=
  promptRelay "Email Helper" "Email Helper" "Email Helper " url apiKey prompt net

def call_weekly_report_helper (url apiKey : Option String) (prompt : String)
    (net : NetOutcome) : ToolResult :=
  promptRelay "Weekly Report Helper" "Weekly Report Helper" "Weekly Report Helper "
    url apiKey prompt net

/-- Python `str` of a coerced cell value, as interpolated into the
`"Error processing CSV: ..."` f-string. -/
def pyStrCell : CellValue → String
  | .vInt n => toString n
  | .vFloat q => floatRepr q
  | .vStr s => s
  | .vNone => "None"
  | .vList xs => "[" ++ String.intercalate ", " (xs.map pySQuote) ++ "]"

/-- `json.dumps` (compact, default separators, `ensure_ascii=False`) of
one converted row; a `None` dict key is serialized as `"null"`. -/
def dumpsKey : DKey → String
  | .col s => jsonQuote s
  | .restkey => "\"null\""

def dumpsCell : CellValue → String
  | .vStr s => jsonQuote s
  | .vInt n => toString n
  | .vFloat q => floatRepr q
  | .vNone => "null"
  | .vList xs => "[" ++ String.intercalate ", " (xs.map jsonQuote) ++ "]"

/-- `json.dumps(json_data, ensure_ascii=False)`: the payload content of
`process_and_send_csv`. -/
def dumpsRowList (rows : List OutRow) : String :=
  "[" ++ String.intercalate ", "
    (rows.map (fun r =>
      "\x7b" ++ String.intercalate ", "
        (r.map (fun kv => dumpsKey kv.1 ++ ": " ++ dumpsCell kv.2)) ++ "\x7d")) ++ "]"

/-- Serialization, config check and HTTP call of `process_and_send_csv`
after a conversion that did not report an error. -/
def processAndSendRest (json_data : List OutRow) (url apiKey : Option String)
    (net : NetOutcome) : ToolResult :=
  let json_content_string := dumpsRowList json_data
  if pyFalsy url || pyFalsy apiKey then ⟨.ok (configMissingMsg "CSV"), 0, none⟩
  else relayCore "" "CSV" csvContentPostprocess json_content_string net

/-- The error check of `process_and_send_csv` (lines 118-120):
`isinstance(json_data, list) and len(json_data) > 0 and
"error" in json_data[0]`, returning `json_data[0]["error"]` when it
holds.  The conversion result is always a list here. -/
def errIndicatorOf (json_data : List OutRow) : Option CellValue :=
  match json_data with
  | r0 :: _ => pyLookup (.col "error") r0
  | [] => none

/-- `process_and_send_csv` (src/main.py lines 109-171): convert the
file, return an error string if the conversion produced a non-empty
list whose first row has an `"error"` key, otherwise serialize, check
configuration, POST, and post-process the response.  An exception from
the conversion propagates (the call is not wrapped in `try`). -/
def process_and_send_csv (file_path : String) (fo : FileOutcome)
    (url apiKey : Option String) (net : NetOutcome) : ToolResult :=
  match convert_csv_to_json file_path fo with
  | .error e => ⟨.error e, 0, none⟩
  | .ok json_data =>
    match errIndicatorOf json_data with
    | some v => ⟨.ok ("Error processing CSV: " ++ pyStrCell v), 0, none⟩
    | none => processAndSendRest json_data url apiKey net

/-! ## Lemmas about the dot-splitting of a one-dot string -/

theorem dot_split (l : List Char) (h : l.count '.' = 1) :
    ∃ a b, splitFirstDot l = some (a, b) ∧
      l = a ++ '.' :: b ∧ '.' ∉ a ∧ '.' ∉ b := by
  induction l with
  | nil => simp [List.count_nil] at h
  | cons x xs ih =>
    by_cases hx : x = '.'
    · subst hx
      have hxs : ('.' : Char) ∉ xs := by
        rw [List.count_cons_self] at h
        exact List.count_eq_zero.mp (by omega)
      exact ⟨[], xs, by simp [splitFirstDot], rfl, by simp, hxs⟩
    · have hcount : xs.count '.' = 1 := by
        rwa [List.count_cons_of_ne (fun hh => hx hh.symm)] at h
      obtain ⟨a, b, hsplit, heq, ha, hb⟩ := ih hcount
      refine ⟨x :: a, b, ?_, by simp [heq], ?_, hb⟩
      · simp [splitFirstDot, hx, hsplit]
      · simp [ha]
        exact fun hh => hx hh.symm

theorem removeFirstOcc_of_split (a b : List Char) (ha : '.' ∉ a) :
    removeFirstOcc '.' (a ++ '.' :: b) = a ++ b := by
  induction a with
  | nil => simp [removeFirstOcc]
  | cons x xs ih =>
    have hx : x ≠ '.' := fun hh => ha (hh ▸ List.mem_cons_self x xs)
    have : '.' ∉ xs := fun hh => ha (List.mem_cons_of_mem x hh)
    simp [removeFirstOcc, hx, ih this]

theorem filter_of_split (a b : List Char) (ha : '.' ∉ a) (hb : '.' ∉ b) :
    (a ++ '.' :: b).filter (fun c => c ≠ '.') = a ++ b := by
  rw [List.filter_append, List.filter_cons]
  simp only [decide_not]
  rw [List.filter_eq_self.mpr, List.filter_eq_self.mpr]
  · simp
  · intro c hc
    simp only [Bool.not_eq_true']
    exact decide_eq_false (fun hh => hb (hh ▸ hc))
  · intro c hc
    simp only [Bool.not_eq_true']
    exact decide_eq_false (fun hh => ha (hh ▸ hc))

theorem takeWhile_of_split (a b : List Char) (ha : '.' ∉ a) :
    (a ++ '.' :: b).takeWhile (fun c => c ≠ '.') = a := by
  induction a with
  | nil => simp [List.takeWhile]
  | cons x xs ih =>
    have hx : x ≠ '.' := fun hh => ha (hh ▸ List.mem_cons_self x xs)
    have hxs : '.' ∉ xs := fun hh => ha (List.mem_cons_of_mem x hh)
    rw [List.cons_append, List.takeWhile_cons_of_pos (by simp [hx]), ih hxs]

theorem dropWhile_of_split (a b : List Char) (ha : '.' ∉ a) :
    (a ++ '.' :: b).dropWhile (fun c => c ≠ '.') = '.' :: b := by
  induction a with
  | nil => simp [List.dropWhile]
  | cons x xs ih =>
    have hx : x ≠ '.' := fun hh => ha (hh ▸ List.mem_cons_self x xs)
    have hxs : '.' ∉ xs := fun hh => ha (List.mem_cons_of_mem x hh)
    rw [List.cons_append, List.dropWhile_cons_of_pos (by simp [hx]), ih hxs]

theorem pyFloat_of_one_dot (s : String)
    (hc : s.toList.count '.' = 1)
    (hd : (s.toList.filter (fun c => c ≠ '.')).all isAsciiDigit = true)
    (hne : (s.toList.filter (fun c => c ≠ '.')).isEmpty = false) :
    pyFloat? s = some (specFloatDenote s) := by
  obtain ⟨a, b, hsplit, heq, ha, hb⟩ := dot_split s.toList hc
  have hfilter : s.toList.filter (fun c => c ≠ '.') = a ++ b := by
    rw [heq]; exact filter_of_split a b ha hb
  rw [hfilter] at hd hne
  have hada : a.all isAsciiDigit = true := by
    rw [List.all_append] at hd; exact (Bool.and_eq_true_iff.mp hd).1
  have hbda : b.all isAsciiDigit = true := by
    rw [List.all_append] at hd; exact (Bool.and_eq_true_iff.mp hd).2
  have hnem : (a.isEmpty && b.isEmpty) = false := by
    cases hae : a.isEmpty with
    | false => rfl
    | true =>
      cases hbe : b.isEmpty with
      | false => simp
      | true =>
        exfalso
        rw [List.isEmpty_iff] at hae hbe
        rw [hae, hbe] at hne
        simp at hne
  have hbc : b.contains '.' = false := by
    simp only [List.contains, List.elem_eq_mem, decide_eq_false_iff_not]
    exact hb
  have htake : s.toList.takeWhile (fun c => c ≠ '.') = a := by
    rw [heq]; exact takeWhile_of_split a b ha
  have hdrop : s.toList.dropWhile (fun c => c ≠ '.') = '.' :: b := by
    rw [heq]; exact dropWhile_of_split a b ha
  simp only [pyFloat?, specFloatDenote, hsplit, htake, hdrop]
  simp [hnem, hada, hbda, hbc, hb]

theorem coerce_guard_eq (s : String) :
    (pyIsDigit (replaceFirstDot s) && countDots s == 1) =
    (s.toList.count '.' == 1
      && (s.toList.filter (fun c => c ≠ '.')).all isAsciiDigit
      && !(s.toList.filter (fun c => c ≠ '.')).isEmpty) := by
  by_cases hc : s.toList.count '.' = 1
  · obtain ⟨a, b, hsplit, heq, ha, hb⟩ := dot_split s.toList hc
    have hfilter : s.toList.filter (fun c => c ≠ '.') = a ++ b := by
      rw [heq]; exact filter_of_split a b ha hb
    have hrem : replaceFirstDot s = ⟨a ++ b⟩ := by
      unfold replaceFirstDot
      rw [heq, removeFirstOcc_of_split a b ha]
    have hcd : countDots s = 1 := hc
    rw [hrem, hfilter, hcd, hc]
    unfold pyIsDigit
    have hmk : (String.mk (a ++ b)).toList = a ++ b := rfl
    rw [hmk]
    cases hE : (a ++ b).isEmpty <;> cases hA : (a ++ b).all isAsciiDigit <;> rfl
  · have h1 : (countDots s == 1) = false := by
      unfold countDots
      exact beq_false_of_ne hc
    have h2 : (s.toList.count '.' == 1) = false := beq_false_of_ne hc
    rw [h1, h2]
    simp

theorem coerceStr_eq_specCoerce (s : String) : coerceStr s = specCoerce s := by
  unfold coerceStr specCoerce
  by_cases h0 : s = ""
  · simp [h0]
  · rw [if_neg h0, if_neg h0]
    have hne : s.toList.isEmpty = false := by
      cases hL : s.toList with
      | nil =>
        exact absurd (String.ext (by simpa using hL)) h0
      | cons c cs => rfl
    have h2 : pyIsDigit s = s.toList.all isAsciiDigit := by
      unfold pyIsDigit
      rw [hne]
      rfl
    rw [h2]
    by_cases hall : s.toList.all isAsciiDigit = true
    · rw [if_pos hall, if_pos hall]
    · rw [if_neg hall, if_neg hall, coerce_guard_eq]

/-- C1: per-cell coercion of `convert_csv_to_json` matches the spec's
reference policy for every cell value: the empty string is preserved;
an all-decimal-digit string becomes the integer it denotes; a string
containing exactly one '.' and otherwise all-digit content becomes the
floating-point (here: exact rational) value it denotes, falling back to
the original string if float conversion fails (the fallback branch is
part of both definitions); every other string is left unchanged. -/
theorem C1_cell_coercion (s : String) :
    coerceStr s = specCoerce s ∧
    (s.toList.count '.' = 1 →
      (s.toList.filter (fun c => c ≠ '.')).all isAsciiDigit = true →
      (s.toList.filter (fun c => c ≠ '.')).isEmpty = false →
      pyFloat? s = some (specFloatDenote s) ∧
        coerceStr s = .vFloat (specFloatDenote s)) ∧
    coerceStr "42" = .vInt 42 ∧
    coerceStr "3.14" = .vFloat (mkRat 157 50) ∧
    coerceStr "3.14.15" = .vStr "3.14.15" ∧
    coerceStr "12a" = .vStr "12a" ∧
    coerceStr "" = .vStr "" := by
  refine ⟨coerceStr_eq_specCoerce s, ?_, by decide, by decide, by decide, by decide, by decide⟩
  intro hc hd hne
  have hfl := pyFloat_of_one_dot s hc hd hne
  refine ⟨hfl, ?_⟩
  have hguard : (pyIsDigit (replaceFirstDot s) && countDots s == 1) = true := by
    rw [coerce_guard_eq]
    simp only [Bool.and_eq_true, beq_iff_eq]
    refine ⟨⟨hc, hd⟩, ?_⟩
    rw [hne]
    rfl
  have h0 : s ≠ "" := by
    intro h
    subst h
    simp at hc
  unfold coerceStr
  rw [if_neg h0]
  have hnotdigit : pyIsDigit s = false := by
    cases hA : s.toList.all isAsciiDigit with
    | false => unfold pyIsDigit; rw [hA]; simp
    | true =>
      exfalso
      have hpos : 0 < s.toList.count '.' := by omega
      have hdot : '.' ∈ s.toList := List.count_pos_iff.mp hpos
      have hdig := List.all_eq_true.mp hA '.' hdot
      exact absurd hdig (by decide)
  rw [hnotdigit]
  simp only [Bool.false_eq_true, if_false]
  rw [if_pos hguard, hfl]

/-- Witness for C1 at the concrete input "3.14". -/
theorem C1_cell_coercion_witness :
    pyFloat? "3.14" = some (specFloatDenote "3.14") ∧
      coerceStr "3.14" = .vFloat (specFloatDenote "3.14") :=
  (C1_cell_coercion "3.14").2.1 (by decide) (by decide) (by decide)

/-! ## Substring lemmas for the error-message claims -/

theorem startsBool_append (l m : List Char) : startsBool l (l ++ m) = true := by
  induction l with
  | nil => rfl
  | cons c cs ih => simp [startsBool, ih]

theorem substrList_starts (n : List Char) (hay : List Char)
    (h : startsBool n hay = true) : substrList n hay = true := by
  cases hay with
  | nil =>
    cases n with
    | nil => rfl
    | cons c cs => exact absurd h (by simp [startsBool])
  | cons c t =>
    unfold substrList
    rw [h]
    rfl

theorem substrList_of_split (n pre post : List Char) :
    substrList n (pre ++ n ++ post) = true := by
  induction pre with
  | nil =>
    have h : ([] : List Char) ++ n ++ post = n ++ post := by simp
    rw [h]
    exact substrList_starts n (n ++ post) (startsBool_append n post)
  | cons c cs ih =>
    have h : (c :: cs) ++ n ++ post = c :: (cs ++ n ++ post) := by simp
    rw [h]
    unfold substrList
    rw [ih]
    simp

theorem strContains_of_toList (hay needle : String) (pre post : List Char)
    (h : hay.toList = pre ++ needle.toList ++ post) :
    strContains hay needle = true := by
  unfold strContains
  rw [h]
  exact substrList_of_split needle.toList pre post

theorem statusFailedMsg_contains (code : Nat) :
    strContains (statusFailedMsg code) (toString code) = true := by
  apply strContains_of_toList _ _
    ("Error: API request failed with status ").toList (". Check server logs.").toList
  simp [statusFailedMsg, String.data_append, String.toList]

theorem missingChoicesMsg_contains (apiname : String) :
    strContains (missingChoicesMsg apiname) "missing choices" = true := by
  apply strContains_of_toList _ _
    (("Error: Received unexpected response format from " ++ apiname ++ " API (").toList)
    (")." ).toList
  simp [missingChoicesMsg, String.data_append, String.toList]

theorem missingContentMsg_contains (apiname : String) :
    strContains (missingContentMsg apiname) "missing message content" = true := by
  apply strContains_of_toList _ _
    (("Error: Received unexpected response format from " ++ apiname ++ " API (").toList)
    (")." ).toList
  simp [missingContentMsg, String.data_append, String.toList]

theorem startsWithList_append (a b : String) :
    startsBool a.toList (a ++ b).toList = true := by
  rw [show (a ++ b).toList = a.toList ++ b.toList by simp [String.data_append, String.toList]]
  exact startsBool_append a.toList b.toList

/-! ## C3 -/

/-- C3: for any CSV file that is read and converted successfully but
whose first converted row has a column named "error",
`process_and_send_csv` misclassifies the conversion as a failure: it
returns a string beginning "Error processing CSV: " and performs no
network call. -/
theorem C3_error_column_misclassified
    (p t : String) (url apiKey : Option String) (net : NetOutcome)
    (rows : List OutRow) (r0 : OutRow) (rest : List OutRow) (v : CellValue)
    (hconv : convert_csv_to_json p (.content t) = .ok rows)
    (hrows : rows = r0 :: rest)
    (hv : pyLookup (.col "error") r0 = some v) :
    process_and_send_csv p (.content t) url apiKey net =
      ⟨.ok ("Error processing CSV: " ++ pyStrCell v), 0, none⟩ ∧
    startsBool ("Error processing CSV: ").toList
      ("Error processing CSV: " ++ pyStrCell v).toList = true := by
  constructor
  · unfold process_and_send_csv
    rw [hconv]
    simp [errIndicatorOf, hrows, hv]
  · exact startsWithList_append "Error processing CSV: " (pyStrCell v)

/-- Witness for C3: header "error,b", data row "1,2"; the conversion
succeeds with rows `[{"error": 1, "b": 2}]`, yet the tool reports a CSV
error and performs no network call. -/
theorem C3_error_column_misclassified_witness :
    process_and_send_csv "f.csv" (.content "error,b\n1,2\n") (some "u") (some "k")
      (.response 200 "\x7b\"choices\":[\x7b\"message\":\x7b\"content\":\"hello\"\x7d\x7d]\x7d") =
      ⟨.ok ("Error processing CSV: " ++ pyStrCell (.vInt 1)), 0, none⟩ :=
  (C3_error_column_misclassified "f.csv" "error,b\n1,2\n" (some "u") (some "k")
    (.response 200 "\x7b\"choices\":[\x7b\"message\":\x7b\"content\":\"hello\"\x7d\x7d]\x7d")
    [[(.col "error", .vInt 1), (.col "b", .vInt 2)]]
    [(.col "error", .vInt 1), (.col "b", .vInt 2)] [] (.vInt 1)
    (by decide) rfl (by decide)).1

/-! ## C10 -/

/-- The HTTP try-block always performs exactly one request and sends
the given content, whatever the outcome. -/
theorem relayCore_calls (reqname apiname : String) (post : JsonValue → String)
    (content : String) (net : NetOutcome) :
    (relayCore reqname apiname post content net).networkCalls = 1 ∧
    (relayCore reqname apiname post content net).sentContent = some content := by
  cases net with
  | requestError e => exact ⟨rfl, rfl⟩
  | otherException m => exact ⟨rfl, rfl⟩
  | response st body =>
    simp only [relayCore]
    by_cases h : is2xx st = true
    · rw [if_pos h]
      split
      · exact ⟨rfl, rfl⟩
      · split <;> exact ⟨rfl, rfl⟩
    · rw [if_neg h]
      exact ⟨rfl, rfl⟩

/-- C10: for a readable CSV file containing only a header row,
`convert_csv_to_json` returns the empty list, and `process_and_send_csv`
does not treat this as an error: with the configuration present it
performs the network call with payload content "[]". -/
theorem C10_header_only_sends_empty_list
    (p t : String) (hdr : List String) (url apiKey : Option String) (net : NetOutcome)
    (hparse : csvParse t = .ok [hdr])
    (hurl : pyFalsy url = false) (hkey : pyFalsy apiKey = false) :
    convert_csv_to_json p (.content t) = .ok [] ∧
    (process_and_send_csv p (.content t) url apiKey net).networkCalls = 1 ∧
    (process_and_send_csv p (.content t) url apiKey net).sentContent = some "[]" := by
  have hconv : convert_csv_to_json p (.content t) = .ok [] := by
    simp only [convert_csv_to_json]
    rw [hparse]
    rfl
  have hrest : process_and_send_csv p (.content t) url apiKey net
      = processAndSendRest [] url apiKey net := by
    simp only [process_and_send_csv]
    rw [hconv]
    rfl
  have hcfg : (pyFalsy url || pyFalsy apiKey) = false := by
    rw [hurl, hkey]
    rfl
  have hPR : processAndSendRest [] url apiKey net
      = relayCore "" "CSV" csvContentPostprocess "[]" net := by
    simp only [processAndSendRest]
    rw [hcfg]
    rfl
  refine ⟨hconv, ?_, ?_⟩
  · rw [hrest, hPR]
    exact (relayCore_calls "" "CSV" csvContentPostprocess "[]" net).1
  · rw [hrest, hPR]
    exact (relayCore_calls "" "CSV" csvContentPostprocess "[]" net).2

/-- Witness for C10 at the header-only file "a,b\n". -/
theorem C10_header_only_sends_empty_list_witness :
    convert_csv_to_json "f.csv" (.content "a,b\n") = .ok [] ∧
    (process_and_send_csv "f.csv" (.content "a,b\n") (some "u") (some "k")
      (.response 500 "oops")).networkCalls = 1 ∧
    (process_and_send_csv "f.csv" (.content "a,b\n") (some "u") (some "k")
      (.response 500 "oops")).sentContent = some "[]" :=
  C10_header_only_sends_empty_list "f.csv" "a,b\n" ["a", "b"] (some "u") (some "k")
    (.response 500 "oops") (by decide) (by decide) (by decide)

/-! -/

/-! ## C4 -/

/-- C4 counterexample: with both configuration values unset,
`process_and_send_csv` on a missing file does not return the fixed
configuration-error string — the CSV error check runs first — so the
claim "every relay invocation with missing configuration returns the
configuration-error string" is false as stated.  (No network call is
performed either way.) -/
theorem C4_counterexample :
    process_and_send_csv "missing.csv" .notFound none none (.requestError "net down") =
      ⟨.ok "Error processing CSV: File not found at path: missing.csv", 0, none⟩ ∧
    "Error processing CSV: File not found at path: missing.csv" ≠
      configMissingMsg "CSV" := by
  exact ⟨rfl, by decide⟩

/-- C4 (amended): with the base URL or the shared API key unset or
empty, every prompt-relay tool returns immediately with the fixed
configuration-error string and performs zero network calls;
`process_and_send_csv` always performs zero network calls, and returns
the fixed configuration-error string provided the CSV conversion
succeeded without an error indicator (otherwise it returns the CSV
error string first). -/
theorem C4_config_missing
    (cfgname apiname reqname : String) (url apiKey : Option String)
    (prompt : String) (net : NetOutcome)
    (hcfg : pyFalsy url = true ∨ pyFalsy apiKey = true) :
    promptRelay cfgname apiname reqname url apiKey prompt net =
      ⟨.ok (configMissingMsg cfgname), 0, none⟩ ∧
    call_grok_uncensored url apiKey prompt net =
      ⟨.ok (configMissingMsg "Grok"), 0, none⟩ ∧
    (∀ p fo, (process_and_send_csv p fo url apiKey net).networkCalls = 0) ∧
    (∀ p fo rows, convert_csv_to_json p fo = .ok rows → errIndicatorOf rows = none →
      process_and_send_csv p fo url apiKey net =
        ⟨.ok (configMissingMsg "CSV"), 0, none⟩) := by
  have hbc : (pyFalsy url || pyFalsy apiKey) = true := by
    cases hcfg with
    | inl h => rw [h]; rfl
    | inr h => rw [h]; simp
  have hpr : ∀ c a r pr, promptRelay c a r url apiKey pr net =
      ⟨.ok (configMissingMsg c), 0, none⟩ := by
    intro c a r pr
    simp only [promptRelay]
    rw [hbc]
    rfl
  refine ⟨hpr cfgname apiname reqname prompt, hpr "Grok" "Grok" "Grok " prompt, ?_, ?_⟩
  · intro p fo
    simp only [process_and_send_csv]
    split
    · rfl
    · split
      · rfl
      · simp only [processAndSendRest]
        rw [hbc]
        rfl
  · intro p fo rows hconv herr
    simp only [process_and_send_csv]
    rw [hconv]
    simp only [herr]
    simp only [processAndSendRest]
    rw [hbc]
    rfl

/-- Witness for C4 (amended) with an unset URL. -/
theorem C4_config_missing_witness :
    promptRelay "Grok" "Grok" "Grok " none (some "k") "hi" (.response 200 "x") =
      ⟨.ok (configMissingMsg "Grok"), 0, none⟩ :=
  (C4_config_missing "Grok" "Grok" "Grok " none (some "k") "hi" (.response 200 "x")
    (Or.inl (by decide))).1

/-! ## C8 -/

/-- Any tool's HTTP block maps a non-2xx status to the status-error
string, independently of the response body. -/
theorem relayCore_non2xx (reqname apiname : String) (post : JsonValue → String)
    (content : String) (code : Nat) (body : String) (hcode : is2xx code = false) :
    relayCore reqname apiname post content (.response code body) =
      ⟨.ok (statusFailedMsg code), 1, some content⟩ := by
  simp only [relayCore]
  rw [hcode]
  rfl

/-- C8: a non-2xx HTTP status makes every relay invocation return
(without raising) an error string that includes the status code; the
response body is not further parsed — the result is the same for every
body. -/
theorem C8_non2xx_status
    (code : Nat) (body body' : String) (hcode : is2xx code = false)
    (cfgname apiname reqname : String) (url apiKey : Option String) (prompt : String)
    (hurl : pyFalsy url = false) (hkey : pyFalsy apiKey = false)
    (p : String) (fo : FileOutcome) (rows : List OutRow)
    (hconv : convert_csv_to_json p fo = .ok rows) (herr : errIndicatorOf rows = none) :
    promptRelay cfgname apiname reqname url apiKey prompt (.response code body) =
      ⟨.ok (statusFailedMsg code), 1, some prompt⟩ ∧
    process_and_send_csv p fo url apiKey (.response code body) =
      ⟨.ok (statusFailedMsg code), 1, some (dumpsRowList rows)⟩ ∧
    strContains (statusFailedMsg code) (toString code) = true ∧
    promptRelay cfgname apiname reqname url apiKey prompt (.response code body) =
      promptRelay cfgname apiname reqname url apiKey prompt (.response code body') := by
  have hbc : (pyFalsy url || pyFalsy apiKey) = false := by
    rw [hurl, hkey]
    rfl
  have hpr : ∀ b, promptRelay cfgname apiname reqname url apiKey prompt (.response code b) =
      ⟨.ok (statusFailedMsg code), 1, some prompt⟩ := by
    intro b
    simp only [promptRelay]
    rw [hbc]
    simp only [Bool.false_eq_true, if_false]
    exact relayCore_non2xx reqname apiname pyStrJson prompt code b hcode
  refine ⟨hpr body, ?_, statusFailedMsg_contains code, (hpr body).trans (hpr body').symm⟩
  simp only [process_and_send_csv]
  rw [hconv]
  simp only [herr]
  simp only [processAndSendRest]
  rw [hbc]
  simp only [Bool.false_eq_true, if_false]
  exact relayCore_non2xx "" "CSV" csvContentPostprocess (dumpsRowList rows) code body hcode

/-- Witness for C8 at a mock HTTP 500: the result string contains
"500". -/
theorem C8_non2xx_status_witness :
    process_and_send_csv "f.csv" (.content "a,b\n1,2\n") (some "u") (some "k")
      (.response 500 "oops") =
      ⟨.ok (statusFailedMsg 500), 1,
        some (dumpsRowList [[(.col "a", .vInt 1), (.col "b", .vInt 2)]])⟩ ∧
    strContains (statusFailedMsg 500) "500" = true :=
  ⟨(C8_non2xx_status 500 "oops" "other" (by decide) "Grok" "Grok" "Grok "
      (some "u") (some "k") "hi" (by decide) (by decide)
      "f.csv" (.content "a,b\n1,2\n") [[(.col "a", .vInt 1), (.col "b", .vInt 2)]]
      (by decide) (by decide)).2.1,
   (C8_non2xx_status 500 "oops" "other" (by decide) "Grok" "Grok" "Grok "
      (some "u") (some "k") "hi" (by decide) (by decide)
      "f.csv" (.content "a,b\n1,2\n") [[(.col "a", .vInt 1), (.col "b", .vInt 2)]]
      (by decide) (by decide)).2.2.1⟩

/-! ## Envelope lemmas -/

/-- The well-formed response envelope with the given content. -/
def envBody (c : JsonValue) : JsonValue :=
  .jObj [("choices", .jArr [.jObj [("message", .jObj [("content", c)])]])]

theorem interpretEnvelope_envBody (c : JsonValue) :
    interpretEnvelope (envBody c) = .ok (.content c) := rfl

theorem interpretEnvelope_no_choices (fs : List (String × JsonValue))
    (h : strLookup "choices" fs = none) :
    interpretEnvelope (.jObj fs) = .ok .missingChoices := by
  simp [interpretEnvelope, pyInOp, h]

theorem interpretEnvelope_empty_choices (fs : List (String × JsonValue))
    (h : strLookup "choices" fs = some (.jArr [])) :
    interpretEnvelope (.jObj fs) = .ok .missingChoices := by
  simp [interpretEnvelope, pyInOp, pySubscrStr, pyLenOp, h]

theorem interpretEnvelope_no_message (fs f2 : List (String × JsonValue))
    (rest : List JsonValue)
    (hc : strLookup "choices" fs = some (.jArr (.jObj f2 :: rest)))
    (hm : strLookup "message" f2 = none) :
    interpretEnvelope (.jObj fs) = .ok .missingContent := by
  simp [interpretEnvelope, pyInOp, pySubscrStr, pyLenOp, pySubscrZero, hc, hm]

theorem interpretEnvelope_no_content (fs f2 f3 : List (String × JsonValue))
    (rest : List JsonValue)
    (hc : strLookup "choices" fs = some (.jArr (.jObj f2 :: rest)))
    (hm : strLookup "message" f2 = some (.jObj f3))
    (hcn : strLookup "content" f3 = none) :
    interpretEnvelope (.jObj fs) = .ok .missingContent := by
  simp [interpretEnvelope, pyInOp, pySubscrStr, pyLenOp, pySubscrZero, hc, hm, hcn]

theorem interpretEnvelope_gen_content (fs f2 f3 : List (String × JsonValue))
    (rest : List JsonValue) (c : JsonValue)
    (hc : strLookup "choices" fs = some (.jArr (.jObj f2 :: rest)))
    (hm : strLookup "message" f2 = some (.jObj f3))
    (hcn : strLookup "content" f3 = some c) :
    interpretEnvelope (.jObj fs) = .ok (.content c) := by
  simp [interpretEnvelope, pyInOp, pySubscrStr, pyLenOp, pySubscrZero, hc, hm, hcn]

/-- The string returned for each envelope-check outcome. -/
def envelopeResult (apiname : String) (post : JsonValue → String) : EnvelopeCheck → String
  | .content c => post c
  | .missingContent => missingContentMsg apiname
  | .missingChoices => missingChoicesMsg apiname

theorem relayCore_envelope (reqname apiname : String) (post : JsonValue → String)
    (content : String) (status : Nat) (body : String) (rj : JsonValue)
    (ec : EnvelopeCheck)
    (h2 : is2xx status = true) (hb : jsonLoads body = some rj)
    (he : interpretEnvelope rj = .ok ec) :
    relayCore reqname apiname post content (.response status body) =
      ⟨.ok (envelopeResult apiname post ec), 1, some content⟩ := by
  simp only [relayCore]
  rw [if_pos h2, hb]
  simp only [he]
  cases ec <;> rfl

theorem relayCore_envelope_raises (reqname apiname : String) (post : JsonValue → String)
    (content : String) (status : Nat) (body : String) (rj : JsonValue) (e : PyExn)
    (h2 : is2xx status = true) (hb : jsonLoads body = some rj)
    (he : interpretEnvelope rj = .error e) :
    relayCore reqname apiname post content (.response status body) =
      ⟨.error e, 1, some content⟩ := by
  simp only [relayCore]
  rw [if_pos h2, hb]
  simp only [he]

theorem promptRelay_config_ok (cfgname apiname reqname : String)
    (url apiKey : Option String) (prompt : String) (net : NetOutcome)
    (hurl : pyFalsy url = false) (hkey : pyFalsy apiKey = false) :
    promptRelay cfgname apiname reqname url apiKey prompt net =
      relayCore reqname apiname pyStrJson prompt net := by
  simp only [promptRelay]
  rw [hurl, hkey]
  rfl

theorem process_config_ok (p : String) (fo : FileOutcome) (url apiKey : Option String)
    (net : NetOutcome) (rows : List OutRow)
    (hconv : convert_csv_to_json p fo = .ok rows) (herr : errIndicatorOf rows = none)
    (hurl : pyFalsy url = false) (hkey : pyFalsy apiKey = false) :
    process_and_send_csv p fo url apiKey net =
      relayCore "" "CSV" csvContentPostprocess (dumpsRowList rows) net := by
  simp only [process_and_send_csv]
  rw [hconv]
  simp only [herr]
  simp only [processAndSendRest]
  rw [hurl, hkey]
  rfl

/-! ## C7 -/

/-- C7: when the response contains `choices[0].message.content`, the
CSV relay re-serializes structured content as pretty JSON and, for
string content, re-parses it as JSON and re-serializes it (falling
back to the raw string on parse failure); every prompt relay returns
the content as a plain string with no JSON re-interpretation, so the
mock envelope with content "hello" yields exactly "hello". -/
theorem C7_content_postprocessing
    (status : Nat) (body : String) (h2 : is2xx status = true)
    (cfgname apiname reqname : String) (url apiKey : Option String) (prompt : String)
    (hurl : pyFalsy url = false) (hkey : pyFalsy apiKey = false)
    (p : String) (fo : FileOutcome) (rows : List OutRow)
    (hconv : convert_csv_to_json p fo = .ok rows) (herr : errIndicatorOf rows = none)
    (c : JsonValue) (hb : jsonLoads body = some (envBody c)) :
    (∀ fs2, c = .jObj fs2 →
      process_and_send_csv p fo url apiKey (.response status body) =
        ⟨.ok (dumpsIndent 0 (.jObj fs2)), 1, some (dumpsRowList rows)⟩) ∧
    (∀ xs, c = .jArr xs →
      process_and_send_csv p fo url apiKey (.response status body) =
        ⟨.ok (dumpsIndent 0 (.jArr xs)), 1, some (dumpsRowList rows)⟩) ∧
    (∀ s v, c = .jStr s → jsonLoads s = some v →
      process_and_send_csv p fo url apiKey (.response status body) =
        ⟨.ok (dumpsIndent 0 v), 1, some (dumpsRowList rows)⟩) ∧
    (∀ s, c = .jStr s → jsonLoads s = none →
      process_and_send_csv p fo url apiKey (.response status body) =
        ⟨.ok s, 1, some (dumpsRowList rows)⟩) ∧
    promptRelay cfgname apiname reqname url apiKey prompt (.response status body) =
      ⟨.ok (pyStrJson c), 1, some prompt⟩ ∧
    (∀ s, c = .jStr s →
      promptRelay cfgname apiname reqname url apiKey prompt (.response status body) =
        ⟨.ok s, 1, some prompt⟩) ∧
    call_grok_uncensored (some "u") (some "k") "hi"
      (.response 200 "\x7b\"choices\":[\x7b\"message\":\x7b\"content\":\"hello\"\x7d\x7d]\x7d") =
      ⟨.ok "hello", 1, some "hi"⟩ := by
  have hcsv : process_and_send_csv p fo url apiKey (.response status body) =
      ⟨.ok (csvContentPostprocess c), 1, some (dumpsRowList rows)⟩ := by
    rw [process_config_ok p fo url apiKey (.response status body) rows hconv herr hurl hkey]
    exact relayCore_envelope "" "CSV" csvContentPostprocess (dumpsRowList rows)
      status body (envBody c) (.content c) h2 hb (interpretEnvelope_envBody c)
  have hpr : promptRelay cfgname apiname reqname url apiKey prompt (.response status body) =
      ⟨.ok (pyStrJson c), 1, some prompt⟩ := by
    rw [promptRelay_config_ok cfgname apiname reqname url apiKey prompt
      (.response status body) hurl hkey]
    exact relayCore_envelope reqname apiname pyStrJson prompt
      status body (envBody c) (.content c) h2 hb (interpretEnvelope_envBody c)
  refine ⟨?_, ?_, ?_, ?_, hpr, ?_, rfl⟩
  · intro fs2 hc
    rw [hcsv, hc]
    rfl
  · intro xs hc
    rw [hcsv, hc]
    rfl
  · intro s v hc hv
    rw [hcsv, hc]
    simp only [csvContentPostprocess]
    rw [hv]
  · intro s hc hv
    rw [hcsv, hc]
    simp only [csvContentPostprocess]
    rw [hv]
  · intro s hc
    rw [hpr, hc]
    rfl

/-- Witness for C7: the spec's mock envelope with string content
"hello" through the Grok prompt relay returns exactly "hello". -/
theorem C7_content_postprocessing_witness :
    promptRelay "Grok" "Grok" "Grok " (some "u") (some "k") "hi"
      (.response 200 "\x7b\"choices\":[\x7b\"message\":\x7b\"content\":\"hello\"\x7d\x7d]\x7d") =
      ⟨.ok "hello", 1, some "hi"⟩ :=
  (C7_content_postprocessing 200
    "\x7b\"choices\":[\x7b\"message\":\x7b\"content\":\"hello\"\x7d\x7d]\x7d"
    (by decide) "Grok" "Grok" "Grok " (some "u") (some "k") "hi"
    (by decide) (by decide) "f.csv" (.content "a,b\n1,2\n")
    [[(.col "a", .vInt 1), (.col "b", .vInt 2)]] (by decide) (by decide)
    (.jStr "hello") rfl).2.2.2.2.2.1 "hello" rfl

/-! ## C9 -/

/-- C9: with a 2xx response whose JSON body is an object lacking a
non-empty `choices` array, every relay invocation returns a terminal
error string citing missing choices; if `choices[0]` is an object
lacking `message.content`, it returns a terminal error string citing
missing message content. -/
theorem C9_missing_envelope_fields
    (status : Nat) (body : String) (h2 : is2xx status = true)
    (cfgname apiname reqname : String) (url apiKey : Option String) (prompt : String)
    (hurl : pyFalsy url = false) (hkey : pyFalsy apiKey = false)
    (p : String) (fo : FileOutcome) (rows : List OutRow)
    (hconv : convert_csv_to_json p fo = .ok rows) (herr : errIndicatorOf rows = none)
    (fs : List (String × JsonValue)) (hb : jsonLoads body = some (.jObj fs)) :
    ((strLookup "choices" fs = none ∨ strLookup "choices" fs = some (.jArr [])) →
      promptRelay cfgname apiname reqname url apiKey prompt (.response status body) =
        ⟨.ok (missingChoicesMsg apiname), 1, some prompt⟩ ∧
      process_and_send_csv p fo url apiKey (.response status body) =
        ⟨.ok (missingChoicesMsg "CSV"), 1, some (dumpsRowList rows)⟩) ∧
    (∀ f2 rest, strLookup "choices" fs = some (.jArr (.jObj f2 :: rest)) →
      (strLookup "message" f2 = none ∨
        ∃ f3, strLookup "message" f2 = some (.jObj f3) ∧ strLookup "content" f3 = none) →
      promptRelay cfgname apiname reqname url apiKey prompt (.response status body) =
        ⟨.ok (missingContentMsg apiname), 1, some prompt⟩ ∧
      process_and_send_csv p fo url apiKey (.response status body) =
        ⟨.ok (missingContentMsg "CSV"), 1, some (dumpsRowList rows)⟩) ∧
    strContains (missingChoicesMsg apiname) "missing choices" = true ∧
    strContains (missingContentMsg apiname) "missing message content" = true := by
  have hP := promptRelay_config_ok cfgname apiname reqname url apiKey prompt
    (.response status body) hurl hkey
  have hC := process_config_ok p fo url apiKey (.response status body) rows hconv herr
    hurl hkey
  refine ⟨?_, ?_, missingChoicesMsg_contains apiname, missingContentMsg_contains apiname⟩
  · intro h
    have he : interpretEnvelope (.jObj fs) = .ok .missingChoices := by
      cases h with
      | inl h => exact interpretEnvelope_no_choices fs h
      | inr h => exact interpretEnvelope_empty_choices fs h
    constructor
    · rw [hP]
      exact relayCore_envelope reqname apiname pyStrJson prompt status body
        (.jObj fs) .missingChoices h2 hb he
    · rw [hC]
      exact relayCore_envelope "" "CSV" csvContentPostprocess (dumpsRowList rows)
        status body (.jObj fs) .missingChoices h2 hb he
  · intro f2 rest hc h
    have he : interpretEnvelope (.jObj fs) = .ok .missingContent := by
      cases h with
      | inl h => exact interpretEnvelope_no_message fs f2 rest hc h
      | inr h =>
        obtain ⟨f3, hm, hcn⟩ := h
        exact interpretEnvelope_no_content fs f2 f3 rest hc hm hcn
    constructor
    · rw [hP]
      exact relayCore_envelope reqname apiname pyStrJson prompt status body
        (.jObj fs) .missingContent h2 hb he
    · rw [hC]
      exact relayCore_envelope "" "CSV" csvContentPostprocess (dumpsRowList rows)
        status body (.jObj fs) .missingContent h2 hb he

/-- Witness for C9 at the body `{}` (no choices key at all). -/
theorem C9_missing_envelope_fields_witness :
    promptRelay "Grok" "Grok" "Grok " (some "u") (some "k") "hi"
      (.response 200 "\x7b\x7d") =
      ⟨.ok (missingChoicesMsg "Grok"), 1, some "hi"⟩ ∧
    process_and_send_csv "f.csv" (.content "a,b\n1,2\n") (some "u") (some "k")
      (.response 200 "\x7b\x7d") =
      ⟨.ok (missingChoicesMsg "CSV"), 1,
        some (dumpsRowList [[(.col "a", .vInt 1), (.col "b", .vInt 2)]])⟩ :=
  (C9_missing_envelope_fields 200 "\x7b\x7d" (by decide) "Grok" "Grok" "Grok "
    (some "u") (some "k") "hi" (by decide) (by decide)
    "f.csv" (.content "a,b\n1,2\n") [[(.col "a", .vInt 1), (.col "b", .vInt 2)]]
    (by decide) (by decide) [] rfl).1 (Or.inl rfl)

/-! ## C2 -/

/-- Response-body shapes whose processing avoids Python type faults:
an object in which `choices`, when present, is an array whose first
element (if any) is an object whose `message` value (if present) is an
object. -/
def wellShapedEnvelope : JsonValue → Bool
  | .jObj fs =>
    match strLookup "choices" fs with
    | none => true
    | some (.jArr []) => true
    | some (.jArr (c :: _)) =>
      match c with
      | .jObj f2 =>
        match strLookup "message" f2 with
        | none => true
        | some (.jObj _) => true
        | some _ => false
      | _ => false
    | some _ => false
  | _ => false

/-- Transport outcomes on which the relay cannot raise: transport
errors, other in-`try` exceptions, non-2xx statuses, undecodable
bodies, and 2xx bodies of benign shape. -/
def netBenign : NetOutcome → Bool
  | .requestError _ => true
  | .otherException _ => true
  | .response status body =>
    if is2xx status then
      match jsonLoads body with
      | none => true
      | some v => wellShapedEnvelope v
    else true

theorem interpretEnvelope_ok_of_wellShaped (v : JsonValue)
    (h : wellShapedEnvelope v = true) : ∃ ec, interpretEnvelope v = .ok ec := by
  cases v with
  | jNull => simp [wellShapedEnvelope] at h
  | jBool b => simp [wellShapedEnvelope] at h
  | jInt n => simp [wellShapedEnvelope] at h
  | jFloat q => simp [wellShapedEnvelope] at h
  | jStr s => simp [wellShapedEnvelope] at h
  | jArr xs => simp [wellShapedEnvelope] at h
  | jObj fs =>
    cases hc : strLookup "choices" fs with
    | none => exact ⟨_, interpretEnvelope_no_choices fs hc⟩
    | some cv =>
      cases cv with
      | jNull => simp [wellShapedEnvelope, hc] at h
      | jBool b => simp [wellShapedEnvelope, hc] at h
      | jInt n => simp [wellShapedEnvelope, hc] at h
      | jFloat q => simp [wellShapedEnvelope, hc] at h
      | jStr s => simp [wellShapedEnvelope, hc] at h
      | jObj f => simp [wellShapedEnvelope, hc] at h
      | jArr xs =>
        cases xs with
        | nil => exact ⟨_, interpretEnvelope_empty_choices fs hc⟩
        | cons c rest =>
          cases c with
          | jNull => simp [wellShapedEnvelope, hc] at h
          | jBool b => simp [wellShapedEnvelope, hc] at h
          | jInt n => simp [wellShapedEnvelope, hc] at h
          | jFloat q => simp [wellShapedEnvelope, hc] at h
          | jStr s => simp [wellShapedEnvelope, hc] at h
          | jArr ys => simp [wellShapedEnvelope, hc] at h
          | jObj f2 =>
            cases hm : strLookup "message" f2 with
            | none => exact ⟨_, interpretEnvelope_no_message fs f2 rest hc hm⟩
            | some mv =>
              cases mv with
              | jNull => simp [wellShapedEnvelope, hc, hm] at h
              | jBool b => simp [wellShapedEnvelope, hc, hm] at h
              | jInt n => simp [wellShapedEnvelope, hc, hm] at h
              | jFloat q => simp [wellShapedEnvelope, hc, hm] at h
              | jStr s => simp [wellShapedEnvelope, hc, hm] at h
              | jArr ys => simp [wellShapedEnvelope, hc, hm] at h
              | jObj f3 =>
                cases hcn : strLookup "content" f3 with
                | none =>
                  exact ⟨_, interpretEnvelope_no_content fs f2 f3 rest hc hm hcn⟩
                | some c2 =>
                  exact ⟨_, interpretEnvelope_gen_content fs f2 f3 rest c2 hc hm hcn⟩

theorem relayCore_ok_of_benign (reqname apiname : String) (post : JsonValue → String)
    (content : String) (net : NetOutcome) (hnet : netBenign net = true) :
    ∃ s, (relayCore reqname apiname post content net).result = .ok s := by
  cases net with
  | requestError e => exact ⟨_, rfl⟩
  | otherException m => exact ⟨_, rfl⟩
  | response status body =>
    simp only [relayCore]
    by_cases h2 : is2xx status = true
    · rw [if_pos h2]
      cases hb : jsonLoads body with
      | none => exact ⟨_, rfl⟩
      | some rj =>
        have hw : wellShapedEnvelope rj = true := by
          simp only [netBenign, h2, if_true, hb] at hnet
          exact hnet
        obtain ⟨ec, he⟩ := interpretEnvelope_ok_of_wellShaped rj hw
        simp only [he]
        cases ec <;> exact ⟨_, rfl⟩
    · rw [if_neg h2]
      exact ⟨_, rfl⟩

theorem promptRelay_ok_of_benign (cfgname apiname reqname : String)
    (url apiKey : Option String) (prompt : String) (net : NetOutcome)
    (hnet : netBenign net = true) :
    ∃ s, (promptRelay cfgname apiname reqname url apiKey prompt net).result = .ok s := by
  simp only [promptRelay]
  by_cases hcfg : (pyFalsy url || pyFalsy apiKey) = true
  · rw [hcfg]
    exact ⟨_, rfl⟩
  · have hcfg' : (pyFalsy url || pyFalsy apiKey) = false := by
      revert hcfg
      cases pyFalsy url || pyFalsy apiKey <;> simp
    rw [hcfg']
    simp only [Bool.false_eq_true, if_false]
    exact relayCore_ok_of_benign reqname apiname pyStrJson prompt net hnet

/-- C2 counterexample: a 2xx response whose JSON body is
`{"choices": 5}` makes the Grok prompt relay raise an uncaught
`TypeError` (from `len(response_json['choices'])`), so "never raises"
is false as stated. -/
theorem C2_counterexample :
    (call_grok_uncensored (some "u") (some "k") "hi"
      (.response 200 "\x7b\"choices\": 5\x7d")).result =
      .error (.typeError "object has no len") := rfl

/-- C2 (amended): whenever the CSV conversion itself completes without
a Python fault, and the remote outcome is a transport error, another
in-`try` exception, a non-2xx status, an undecodable body, or a 2xx
JSON body of benign shape (`choices`, when present in the object, an
array whose first element is an object whose `message` value is an
object), both the prompt relays and `process_and_send_csv` return a
string and do not raise.  (Outside these shapes the operation can
raise, per the counterexample.) -/
theorem C2_no_raise_when_benign
    (cfgname apiname reqname : String) (url apiKey : Option String) (prompt : String)
    (net : NetOutcome) (hnet : netBenign net = true)
    (p : String) (fo : FileOutcome) (rows : List OutRow)
    (hconv : convert_csv_to_json p fo = .ok rows) :
    (∃ s, (promptRelay cfgname apiname reqname url apiKey prompt net).result = .ok s) ∧
    (∃ s, (process_and_send_csv p fo url apiKey net).result = .ok s) := by
  refine ⟨promptRelay_ok_of_benign cfgname apiname reqname url apiKey prompt net hnet, ?_⟩
  have hstep : process_and_send_csv p fo url apiKey net =
      match errIndicatorOf rows with
      | some v => ⟨.ok ("Error processing CSV: " ++ pyStrCell v), 0, none⟩
      | none => processAndSendRest rows url apiKey net := by
    simp only [process_and_send_csv]
    rw [hconv]
  rw [hstep]
  cases errIndicatorOf rows with
  | some v => exact ⟨_, rfl⟩
  | none =>
    simp only [processAndSendRest]
    by_cases hcfg : (pyFalsy url || pyFalsy apiKey) = true
    · rw [hcfg]
      exact ⟨_, rfl⟩
    · have hcfg' : (pyFalsy url || pyFalsy apiKey) = false := by
        revert hcfg
        cases pyFalsy url || pyFalsy apiKey <;> simp
      rw [hcfg']
      simp only [Bool.false_eq_true, if_false]
      exact relayCore_ok_of_benign "" "CSV" csvContentPostprocess (dumpsRowList rows)
        net hnet

/-- Witness for C2 (amended) on a benign 2xx body. -/
theorem C2_no_raise_when_benign_witness :
    (∃ s, (promptRelay "Grok" "Grok" "Grok " (some "u") (some "k") "hi"
      (.response 200 "\x7b\"choices\":[\x7b\"message\":\x7b\"content\":\"hello\"\x7d\x7d]\x7d")).result
        = .ok s) ∧
    (∃ s, (process_and_send_csv "f.csv" (.content "a,b\n1,2\n") (some "u") (some "k")
      (.response 200 "\x7b\"choices\":[\x7b\"message\":\x7b\"content\":\"hello\"\x7d\x7d]\x7d")).result
        = .ok s) :=
  C2_no_raise_when_benign "Grok" "Grok" "Grok " (some "u") (some "k") "hi"
    (.response 200 "\x7b\"choices\":[\x7b\"message\":\x7b\"content\":\"hello\"\x7d\x7d]\x7d")
    (by decide) "f.csv" (.content "a,b\n1,2\n")
    [[(.col "a", .vInt 1), (.col "b", .vInt 2)]] (by decide)

/-! ## C5 -/

/-- The value a raw string cell coerces to (`None` and extra-cell lists
are carried through by the corresponding loop branches; the non-empty
list case never completes — it raises — and is given a dummy value). -/
def coerceRaw : RawCell → CellValue
  | .rstr s => coerceStr s
  | .rnone => .vNone
  | .rlist xs => .vList xs

theorem coerceStr_scalar (s : String) : isScalarCell (coerceStr s) = true := by
  unfold coerceStr
  repeat' split
  all_goals rfl

theorem pyInsert_forall {α : Type} (P : α → Prop) (k : DKey) (v : α)
    (d : List (DKey × α)) (hd : ∀ kv ∈ d, P kv.2) (hv : P v) :
    ∀ kv ∈ pyInsert k v d, P kv.2 := by
  induction d with
  | nil =>
    intro kv hkv
    simp only [pyInsert, List.mem_singleton] at hkv
    subst hkv
    exact hv
  | cons kv0 rest ih =>
    obtain ⟨k0, v0⟩ := kv0
    intro kv hkv
    simp only [pyInsert] at hkv
    by_cases hk : k0 = k
    · rw [if_pos hk] at hkv
      rcases List.mem_cons.mp hkv with h | h
      · subst h
        exact hv
      · exact hd kv (List.mem_cons_of_mem _ h)
    · rw [if_neg hk] at hkv
      rcases List.mem_cons.mp hkv with h | h
      · subst h
        exact hd (k0, v0) (List.mem_cons_self _ _)
      · exact ih (fun kv2 hkv2 => hd kv2 (List.mem_cons_of_mem _ hkv2)) kv h

theorem zip_fold_allStr (pairs : List (String × String)) (d0 : RawRow)
    (hd : ∀ kv ∈ d0, ∃ s, kv.2 = RawCell.rstr s) :
    ∀ kv ∈ pairs.foldl (fun d kv => pyInsert (.col kv.1) (.rstr kv.2) d) d0,
      ∃ s, kv.2 = RawCell.rstr s := by
  induction pairs generalizing d0 with
  | nil => exact hd
  | cons pr ps ih =>
    intro kv hkv
    exact ih (pyInsert (.col pr.1) (.rstr pr.2) d0)
      (pyInsert_forall (fun v => ∃ s, v = RawCell.rstr s) (.col pr.1) (.rstr pr.2) d0 hd
        ⟨pr.2, rfl⟩) kv hkv

/-- With as many cells as header columns, every raw value of the
`DictReader` row dictionary is a string. -/
theorem mkDictRow_allStr (fns row : List String) (h : fns.length = row.length) :
    ∀ kv ∈ mkDictRow fns row, ∃ s, kv.2 = RawCell.rstr s := by
  unfold mkDictRow
  rw [if_neg (by omega), if_neg (by omega)]
  exact zip_fold_allStr (List.zip fns row) [] (by intro kv hkv; simp at hkv)

theorem processRow_allStr (r : RawRow) (h : ∀ kv ∈ r, ∃ s, kv.2 = RawCell.rstr s) :
    processRow r = .ok (r.map (fun kv => (kv.1, coerceRaw kv.2))) := by
  induction r with
  | nil => rfl
  | cons kv rest ih =>
    obtain ⟨s, hs⟩ := h kv (List.mem_cons_self _ _)
    have ih' := ih (fun kv2 h2 => h kv2 (List.mem_cons_of_mem _ h2))
    simp only [processRow, hs, processCell, ih', List.map_cons]
    rfl

theorem processRows_map (rs : List RawRow)
    (h : ∀ r ∈ rs, ∀ kv ∈ r, ∃ s, kv.2 = RawCell.rstr s) :
    processRows rs = .ok (rs.map (fun r => r.map (fun kv => (kv.1, coerceRaw kv.2)))) := by
  induction rs with
  | nil => rfl
  | cons r rest ih =>
    have h0 := processRow_allStr r (h r (List.mem_cons_self _ _))
    have ih' := ih (fun r2 h2 => h r2 (List.mem_cons_of_mem _ h2))
    simp only [processRows, h0, ih', List.map_cons]

/-- C5 counterexample: the CSV "a,b\n1\n" (data row shorter than the
header) is read successfully, but the converted row binds "b" to
`None`, which is not an integer, float, or string; and the CSV
"a\n1,2\n" (data row longer than the header) makes the conversion
raise an `AttributeError` instead of returning rows at all. -/
theorem C5_counterexample :
    convert_csv_to_json "f.csv" (.content "a,b\n1\n") =
      .ok [[(.col "a", .vInt 1), (.col "b", .vNone)]] ∧
    isScalarCell .vNone = false ∧
    convert_csv_to_json "f.csv" (.content "a\n1,2\n") =
      .error (.attributeError "list object has no attribute isdigit") := by
  exact ⟨by decide, rfl, by decide⟩

/-- C5 (amended): for every successfully parsed CSV whose (non-blank)
data rows all have exactly as many cells as the header,
`convert_csv_to_json` succeeds and every value of every returned
row-mapping is an integer, float, or string.  (Rows shorter than the
header bind the missing columns to `None`, and rows longer than the
header raise, per the counterexample.) -/
theorem C5_scalar_values (p t : String) (hdr : List String) (drecs : List (List String))
    (hparse : csvParse t = .ok (hdr :: drecs))
    (hw : ∀ r ∈ drecs, r ≠ [] → r.length = hdr.length) :
    ∃ rows, convert_csv_to_json p (.content t) = .ok rows ∧
      ∀ row ∈ rows, ∀ kv ∈ row, isScalarCell kv.2 = true := by
  have hall : ∀ r ∈ dictRows (hdr :: drecs), ∀ kv ∈ r, ∃ s, kv.2 = RawCell.rstr s := by
    intro r hr
    simp only [dictRows, List.mem_map, List.mem_filter] at hr
    obtain ⟨rec, ⟨hrec, hne⟩, hmk⟩ := hr
    subst hmk
    exact mkDictRow_allStr hdr rec
      (hw rec hrec (by simpa using hne)).symm
  refine ⟨(dictRows (hdr :: drecs)).map
    (fun r => r.map (fun kv => (kv.1, coerceRaw kv.2))), ?_, ?_⟩
  · simp only [convert_csv_to_json]
    rw [hparse]
    exact processRows_map (dictRows (hdr :: drecs)) hall
  · intro row hrow kv hkv
    simp only [List.mem_map] at hrow
    obtain ⟨r, hr, hmap⟩ := hrow
    subst hmap
    simp only [List.mem_map] at hkv
    obtain ⟨kv0, hkv0, hkv0eq⟩ := hkv
    obtain ⟨s, hs⟩ := hall r hr kv0 hkv0
    subst hkv0eq
    simp only [hs, coerceRaw]
    exact coerceStr_scalar s

/-- Witness for C5 (amended) on the well-formed file "a,b\n1,2.5\n". -/
theorem C5_scalar_values_witness :
    ∃ rows, convert_csv_to_json "f.csv" (.content "a,b\n1,2.5\n") = .ok rows ∧
      ∀ row ∈ rows, ∀ kv ∈ row, isScalarCell kv.2 = true :=
  C5_scalar_values "f.csv" "a,b\n1,2.5\n" ["a", "b"] [["1", "2.5"]]
    (by decide) (by decide)

/-! ## C6 -/

theorem mem_of_getElemQ {α : Type} (l : List α) (i : Nat) (a : α)
    (h : l[i]? = some a) : a ∈ l := by
  induction l generalizing i with
  | nil => simp at h
  | cons x xs ih =>
    cases i with
    | zero =>
      simp only [List.getElem?_cons_zero, Option.some.injEq] at h
      exact h ▸ List.mem_cons_self _ _
    | succ i' =>
      exact List.mem_cons_of_mem _ (ih i' (by simpa using h))

theorem getElemQ_map {α β : Type} (f : α → β) (l : List α) (i : Nat) :
    (l.map f)[i]? = (l[i]?).map f := by
  induction l generalizing i with
  | nil => simp
  | cons x xs ih =>
    cases i with
    | zero => simp
    | succ i' => simp [ih i']

/-- Inserting an absent key appends it. -/
theorem pyInsert_append {α : Type} (k : DKey) (v : α) (d : List (DKey × α))
    (h : ∀ kv ∈ d, kv.1 ≠ k) : pyInsert k v d = d ++ [(k, v)] := by
  induction d with
  | nil => rfl
  | cons kv0 rest ih =>
    obtain ⟨k0, v0⟩ := kv0
    have hne : k0 ≠ k := h (k0, v0) (List.mem_cons_self _ _)
    simp only [pyInsert, if_neg hne, List.cons_append]
    rw [ih (fun kv2 h2 => h kv2 (List.mem_cons_of_mem _ h2))]

/-- With pairwise-distinct keys disjoint from the accumulator, the
insertion fold is plain concatenation. -/
theorem zip_fold_eq_aux (pairs : List (String × String)) (d0 : RawRow)
    (hdisj : ∀ kv ∈ d0, ∀ pr ∈ pairs, kv.1 ≠ DKey.col pr.1)
    (hnd : (pairs.map Prod.fst).Nodup) :
    pairs.foldl (fun d kv => pyInsert (.col kv.1) (.rstr kv.2) d) d0 =
      d0 ++ pairs.map (fun pr => (DKey.col pr.1, RawCell.rstr pr.2)) := by
  induction pairs generalizing d0 with
  | nil => simp
  | cons pr ps ih =>
    obtain ⟨k0, v0⟩ := pr
    simp only [List.map_cons, List.nodup_cons] at hnd
    simp only [List.foldl_cons]
    have hstep : pyInsert (DKey.col k0) (RawCell.rstr v0) d0 =
        d0 ++ [(DKey.col k0, RawCell.rstr v0)] :=
      pyInsert_append _ _ d0
        (fun kv hkv => hdisj kv hkv (k0, v0) (List.mem_cons_self _ _))
    rw [hstep, ih (d0 ++ [(DKey.col k0, RawCell.rstr v0)]) ?_ hnd.2]
    · simp
    · intro kv hkv pr2 hpr2
      rcases List.mem_append.mp hkv with h | h
      · exact hdisj kv h pr2 (List.mem_cons_of_mem _ hpr2)
      · simp only [List.mem_singleton] at h
        subst h
        intro he
        injection he with he'
        exact hnd.1 (he' ▸ List.mem_map_of_mem Prod.fst hpr2)

/-- With as many cells as (pairwise-distinct) header columns, the
`DictReader` row dictionary is the zipped association list itself. -/
theorem mkDictRow_eq_zip (hdr rec : List String) (hlen : rec.length = hdr.length)
    (hnd : hdr.Nodup) :
    mkDictRow hdr rec =
      (List.zip hdr rec).map (fun pr => (DKey.col pr.1, RawCell.rstr pr.2)) := by
  unfold mkDictRow
  rw [if_neg (by omega), if_neg (by omega)]
  have hkeys : (List.zip hdr rec).map Prod.fst = hdr :=
    List.map_fst_zip hdr rec (by omega)
  have h := zip_fold_eq_aux (List.zip hdr rec) []
    (by intro kv hkv; simp at hkv) (by rw [hkeys]; exact hnd)
  simpa using h

theorem pyLookup_zip_coerce (hdr rec : List String)
    (hlen : rec.length = hdr.length) (hnd : hdr.Nodup)
    (i : Nat) (name cell : String)
    (hname : hdr[i]? = some name) (hcell : rec[i]? = some cell) :
    pyLookup (.col name)
      ((List.zip hdr rec).map (fun pr => (DKey.col pr.1, coerceStr pr.2))) =
      some (coerceStr cell) := by
  induction hdr generalizing rec i with
  | nil => simp at hname
  | cons h0 hs ih =>
    cases rec with
    | nil => simp at hlen
    | cons r0 rs =>
      cases i with
      | zero =>
        have hn : h0 = name := by simpa using hname
        have hcl : r0 = cell := by simpa using hcell
        subst hn
        subst hcl
        simp [pyLookup]
      | succ i' =>
        have hname' : hs[i']? = some name := by simpa using hname
        have hcell' : rs[i']? = some cell := by simpa using hcell
        have hmem : name ∈ hs := mem_of_getElemQ hs i' name hname'
        have hne : DKey.col h0 ≠ DKey.col name := by
          intro he
          injection he with he'
          exact (List.nodup_cons.mp hnd).1 (he' ▸ hmem)
        simp only [List.zip_cons_cons, List.map_cons, pyLookup]
        rw [if_neg hne]
        exact ih rs (by simpa using hlen) (List.nodup_cons.mp hnd).2 i' hname' hcell'

/-- C6: for well-formed delimited input (first row the header,
pairwise-distinct column names, each data row non-blank with exactly
one cell per column), `convert_csv_to_json` produces exactly one
row-mapping per data row, and looking up the i-th column name in the
j-th row-mapping yields exactly the coerced i-th cell of the j-th data
row; in particular the file "a,b\n1,2.5\nfoo,\n" yields exactly the two
rows listed in the specification. -/
theorem C6_exact_association (p t : String) (hdr : List String)
    (drecs : List (List String))
    (hparse : csvParse t = .ok (hdr :: drecs))
    (hnb : ∀ r ∈ drecs, r ≠ [])
    (hw : ∀ r ∈ drecs, r.length = hdr.length)
    (hnd : hdr.Nodup) :
    ∃ rows, convert_csv_to_json p (.content t) = .ok rows ∧
      rows.length = drecs.length ∧
      (∀ (j i : Nat) (rec : List String) (row : OutRow) (name cell : String),
        drecs[j]? = some rec → rows[j]? = some row →
        hdr[i]? = some name → rec[i]? = some cell →
        pyLookup (.col name) row = some (coerceStr cell)) ∧
      convert_csv_to_json "g.csv" (.content "a,b\n1,2.5\nfoo,\n") =
        .ok [[(.col "a", .vInt 1), (.col "b", .vFloat (mkRat 5 2))],
             [(.col "a", .vStr "foo"), (.col "b", .vStr "")]] := by
  have hfil : drecs.filter (fun r => r ≠ []) = drecs :=
    List.filter_eq_self.mpr (by intro r hr; simpa using hnb r hr)
  have hdict : dictRows (hdr :: drecs) = drecs.map (mkDictRow hdr) := by
    simp only [dictRows, hfil]
  have hallstr : ∀ r ∈ drecs.map (mkDictRow hdr), ∀ kv ∈ r, ∃ s, kv.2 = RawCell.rstr s := by
    intro r hr
    simp only [List.mem_map] at hr
    obtain ⟨rec, hrec, hmk⟩ := hr
    subst hmk
    exact mkDictRow_allStr hdr rec (hw rec hrec).symm
  refine ⟨drecs.map (fun rec => (List.zip hdr rec).map
      (fun pr => (DKey.col pr.1, coerceStr pr.2))), ?_, List.length_map _ _, ?_, by decide⟩
  · simp only [convert_csv_to_json]
    rw [hparse]
    show processRows (dictRows (hdr :: drecs)) = _
    rw [hdict, processRows_map (drecs.map (mkDictRow hdr)) hallstr, List.map_map]
    congr 1
    apply List.map_congr_left
    intro rec hrec
    simp only [Function.comp]
    rw [mkDictRow_eq_zip hdr rec (hw rec hrec) hnd, List.map_map]
    rfl
  · intro j i rec row name cell hj hrow hn hc
    rw [getElemQ_map _ drecs j, hj] at hrow
    have hrow2 : some ((List.zip hdr rec).map
        (fun pr => (DKey.col pr.1, coerceStr pr.2))) = some row := hrow
    injection hrow2 with hrow3
    rw [← hrow3]
    exact pyLookup_zip_coerce hdr rec (hw rec (mem_of_getElemQ drecs j rec hj)) hnd
      i name cell hn hc

/-- Witness for C6 at the spec's end-to-end example file. -/
theorem C6_exact_association_witness :
    ∃ rows, convert_csv_to_json "g.csv" (.content "a,b\n1,2.5\nfoo,\n") = .ok rows ∧
      rows.length = 2 :=
  have h := C6_exact_association "g.csv" "a,b\n1,2.5\nfoo,\n" ["a", "b"]
    [["1", "2.5"], ["foo", ""]] (by decide) (by decide) (by decide) (by decide)
  h.elim (fun rows hr => ⟨rows, hr.1, hr.2.1⟩)

/-! ## Model sanity checks

Concrete evaluations of the embedded functions against the behaviour
of the Python source on the same inputs. -/

theorem sanity_coerce_examples :
    coerceStr ".5" = .vFloat (mkRat 1 2) ∧
    coerceStr "5." = .vFloat (mkRat 5 1) ∧
    coerceStr "." = .vStr "." ∧
    coerceStr "007" = .vInt 7 := by
  exact ⟨by decide, by decide, by decide, by decide⟩

theorem sanity_csv_parse :
    csvParse "a,b\n1,2.5\nfoo,\n" = .ok [["a", "b"], ["1", "2.5"], ["foo", ""]] ∧
    csvParse "" = .ok [] ∧
    csvParse "a\n\nb\n" = .ok [["a"], [], ["b"]] ∧
    csvParse "a,\"x,y\"\n" = .ok [["a", "x,y"]] ∧
    csvParse "a\r\nb\r\n" = .ok [["a"], ["b"]] := by
  exact ⟨by decide, by decide, by decide, by decide, by decide⟩

theorem sanity_convert :
    convert_csv_to_json "f.csv" (.content "a,b\n1,2.5\nfoo,\n") =
      .ok [[(.col "a", .vInt 1), (.col "b", .vFloat (mkRat 5 2))],
           [(.col "a", .vStr "foo"), (.col "b", .vStr "")]] := by
  decide

theorem sanity_float_repr :
    floatRepr (mkRat 157 50) = "3.14" ∧ floatRepr (mkRat 5 1) = "5.0" ∧
    floatRepr (mkRat 1 2) = "0.5" := by
  exact ⟨by decide, by decide, by decide⟩

theorem sanity_json_loads :
    jsonLoads "[1, 2.5, null, true, \"x\"]" =
      some (.jArr [.jInt 1, .jFloat (mkRat 5 2), .jNull, .jBool true, .jStr "x"]) ∧
    jsonLoads "not json" = none ∧
    jsonLoads "-3" = some (.jInt (-3)) ∧
    jsonLoads "1e2" = some (.jFloat (mkRat 100 1)) ∧
    jsonLoads "01" = none ∧
    jsonLoads "\"a\\nb\"" = some (.jStr "a\nb") :=
  ⟨rfl, rfl, rfl, rfl, rfl, rfl⟩

theorem sanity_dumps_indent :
    dumpsIndent 0 (.jObj [("a", .jInt 1)]) = "\x7b\n  \"a\": 1\n\x7d" ∧
    dumpsIndent 0 (.jArr [.jStr "x", .jInt 2]) = "[\n  \"x\",\n  2\n]" :=
  ⟨rfl, rfl⟩

theorem sanity_csv_relay_reparses_string_content :
    process_and_send_csv "f.csv" (.content "a,b\n1,2\n") (some "u") (some "k")
      (.response 200
        "\x7b\"choices\":[\x7b\"message\":\x7b\"content\":\"\x7b\\\"a\\\": 1\x7d\"\x7d\x7d]\x7d") =
      ⟨.ok "\x7b\n  \"a\": 1\n\x7d", 1, some "[\x7b\"a\": 1, \"b\": 2\x7d]"⟩ := rfl

end Datasaur
